import Mathlib

/-!
Verification of the raylib `rcamera.h` 3D camera subsystem.

The camera controller (`rcamera.h`) is embedded shallowly: each C function
becomes a Lean definition over real-valued 3-component vectors.  The vector
math primitives live in `raymath.h`, which is not part of the sources at
hand; they are modelled from the specification's description of the math
library (pure functions; normalize of a zero vector yields a safe zero
result; rotation uses Rodrigues' formula about the normalized axis, with a
degenerate zero axis leaving the vector unchanged).
-/

open Real

noncomputable section

set_option genSizeOfSpec false in
set_option genInjectivity false in
/-- Three-component vector of reals, mirroring `rl_Vector3`. -/
@[ext]
structure rl_Vector3 where
  x : ℝ
  y : ℝ
  z : ℝ

set_option genSizeOfSpec false in
set_option genInjectivity false in
/-- Camera state, mirroring `rl_Camera3D`: position, target, up vector,
vertical field of view and projection kind. -/
@[ext]
structure rl_Camera3D where
  position : rl_Vector3
  target : rl_Vector3
  up : rl_Vector3
  fovy : ℝ
  projection : ℤ

/-- Modelled from the spec: componentwise vector addition (`Vector3Add`). -/
def Vector3Add (a b : rl_Vector3) : rl_Vector3 :=
  ⟨a.x + b.x, a.y + b.y, a.z + b.z⟩

/-- Modelled from the spec: componentwise vector subtraction (`Vector3Subtract`). -/
def Vector3Subtract (a b : rl_Vector3) : rl_Vector3 :=
  ⟨a.x - b.x, a.y - b.y, a.z - b.z⟩

/-- Modelled from the spec: scaling of a vector by a scalar (`Vector3Scale`). -/
def Vector3Scale (v : rl_Vector3) (c : ℝ) : rl_Vector3 :=
  ⟨v.x * c, v.y * c, v.z * c⟩

/-- Modelled from the spec: vector negation (`Vector3Negate`). -/
def Vector3Negate (v : rl_Vector3) : rl_Vector3 :=
  ⟨-v.x, -v.y, -v.z⟩

/-- Modelled from the spec: dot product of two vectors. -/
def Vector3DotProduct (a b : rl_Vector3) : ℝ :=
  a.x * b.x + a.y * b.y + a.z * b.z

/-- Modelled from the spec: cross product of two vectors (`Vector3CrossProduct`). -/
def Vector3CrossProduct (a b : rl_Vector3) : rl_Vector3 :=
  ⟨a.y * b.z - a.z * b.y, a.z * b.x - a.x * b.z, a.x * b.y - a.y * b.x⟩

/-- Modelled from the spec: Euclidean length of a vector (`Vector3Length`). -/
def Vector3Length (v : rl_Vector3) : ℝ :=
  Real.sqrt (Vector3DotProduct v v)

/-- Modelled from the spec: normalization to unit length (`Vector3Normalize`);
a zero-vector input yields the safe zero result. -/
def Vector3Normalize (v : rl_Vector3) : rl_Vector3 :=
  if Vector3Length v = 0 then v else Vector3Scale v (1 / Vector3Length v)

/-- Modelled from the spec: distance between two points (`Vector3Distance`). -/
def Vector3Distance (a b : rl_Vector3) : ℝ :=
  Vector3Length (Vector3Subtract b a)

/-- Modelled from the spec: angle between two vectors in radians, in the
range `[0, π]` (`Vector3Angle`). -/
def Vector3Angle (a b : rl_Vector3) : ℝ :=
  Real.arccos (Vector3DotProduct a b / (Vector3Length a * Vector3Length b))

/-- Modelled from the spec: rotation of a vector about an axis by an angle
(`Vector3RotateByAxisAngle`), Rodrigues' rotation formula about the
normalized axis; a degenerate zero axis leaves the vector unchanged. -/
def Vector3RotateByAxisAngle (v axis : rl_Vector3) (angle : ℝ) : rl_Vector3 :=
  if Vector3Length axis = 0 then v
  else
    let k := Vector3Scale axis (1 / Vector3Length axis)
    Vector3Add
      (Vector3Add (Vector3Scale v (Real.cos angle))
        (Vector3Scale (Vector3CrossProduct k v) (Real.sin angle)))
      (Vector3Scale k (Vector3DotProduct k v * (1 - Real.cos angle)))

/-- Modelled from the spec: the zero vector (`Vector3Zero`). -/
def Vector3Zero : rl_Vector3 := ⟨0, 0, 0⟩

/-- Degrees-to-radians factor `rl_DEG2RAD` from `raylib.h`. -/
def rl_DEG2RAD : ℝ := Real.pi / 180

/-- Camera forward vector, from `GetCameraForward` in `rcamera.h`. -/
def GetCameraForward (camera : rl_Camera3D) : rl_Vector3 :=
  Vector3Normalize (Vector3Subtract camera.target camera.position)

/-- Camera up vector (normalized), from `GetCameraUp` in `rcamera.h`. -/
def GetCameraUp (camera : rl_Camera3D) : rl_Vector3 :=
  Vector3Normalize camera.up

/-- Camera right vector, from `GetCameraRight` in `rcamera.h`. -/
def GetCameraRight (camera : rl_Camera3D) : rl_Vector3 :=
  Vector3Normalize (Vector3CrossProduct (GetCameraForward camera) (GetCameraUp camera))

/-- Moves the camera in its forward direction, from `CameraMoveForward` in
`rcamera.h`: optional world-plane projection of the forward vector, then
scaling by the distance and translating position and target. -/
def CameraMoveForward (camera : rl_Camera3D) (distance : ℝ)
    (moveInWorldPlane : Bool) : rl_Camera3D :=
  let forward := GetCameraForward camera
  let forward :=
    if moveInWorldPlane then
      Vector3Normalize
        (if |camera.up.z| > 0.7071 then ⟨forward.x, forward.y, 0⟩
         else if |camera.up.x| > 0.7071 then ⟨0, forward.y, forward.z⟩
         else ⟨forward.x, 0, forward.z⟩)
    else forward
  let forward := Vector3Scale forward distance
  { camera with
    position := Vector3Add camera.position forward
    target := Vector3Add camera.target forward }

/-- Moves the camera in its up direction, from `CameraMoveUp` in `rcamera.h`. -/
def CameraMoveUp (camera : rl_Camera3D) (distance : ℝ) : rl_Camera3D :=
  let up := Vector3Scale (GetCameraUp camera) distance
  { camera with
    position := Vector3Add camera.position up
    target := Vector3Add camera.target up }

/-- Moves the camera in its right direction, from `CameraMoveRight` in
`rcamera.h`, with the same world-plane projection policy as forward motion. -/
def CameraMoveRight (camera : rl_Camera3D) (distance : ℝ)
    (moveInWorldPlane : Bool) : rl_Camera3D :=
  let right := GetCameraRight camera
  let right :=
    if moveInWorldPlane then
      Vector3Normalize
        (if |camera.up.z| > 0.7071 then ⟨right.x, right.y, 0⟩
         else if |camera.up.x| > 0.7071 then ⟨0, right.y, right.z⟩
         else ⟨right.x, 0, right.z⟩)
    else right
  let right := Vector3Scale right distance
  { camera with
    position := Vector3Add camera.position right
    target := Vector3Add camera.target right }

/-- Moves the camera position closer to or farther from the target, from
`CameraMoveToTarget` in `rcamera.h`: the new distance is clamped to `0.001`
when it would drop to zero or below. -/
def CameraMoveToTarget (camera : rl_Camera3D) (delta : ℝ) : rl_Camera3D :=
  let distance := Vector3Distance camera.position camera.target + delta
  let distance := if distance ≤ 0 then 0.001 else distance
  { camera with
    position := Vector3Add camera.target
      (Vector3Scale (GetCameraForward camera) (-distance)) }

/-- Rotates the camera about its up vector, from `CameraYaw` in `rcamera.h`. -/
def CameraYaw (camera : rl_Camera3D) (angle : ℝ)
    (rotateAroundTarget : Bool) : rl_Camera3D :=
  let up := GetCameraUp camera
  let targetPosition := Vector3Subtract camera.target camera.position
  let targetPosition := Vector3RotateByAxisAngle targetPosition up angle
  if rotateAroundTarget then
    { camera with position := Vector3Subtract camera.target targetPosition }
  else
    { camera with target := Vector3Add camera.position targetPosition }

/-- Rotates the camera about its right vector, from `CameraPitch` in
`rcamera.h`: with `lockView` the angle is clamped between the (epsilon
adjusted) angles to the up axis and its negation before rotating. -/
def CameraPitch (camera : rl_Camera3D) (angle : ℝ)
    (lockView rotateAroundTarget rotateUp : Bool) : rl_Camera3D :=
  let up := GetCameraUp camera
  let targetPosition := Vector3Subtract camera.target camera.position
  let angle :=
    if lockView then
      let maxAngleUp := Vector3Angle up targetPosition - 0.001
      let angle := if angle > maxAngleUp then maxAngleUp else angle
      let maxAngleDown := -(Vector3Angle (Vector3Negate up) targetPosition) + 0.001
      if angle < maxAngleDown then maxAngleDown else angle
    else angle
  let right := GetCameraRight camera
  let rotated := Vector3RotateByAxisAngle targetPosition right angle
  let camera2 :=
    if rotateAroundTarget then
      { camera with position := Vector3Subtract camera.target rotated }
    else
      { camera with target := Vector3Add camera.position rotated }
  if rotateUp then
    { camera2 with up := Vector3RotateByAxisAngle camera.up right angle }
  else camera2

/-- Angle actually applied by `CameraPitch` after the optional lock-view
clamping, mirroring the clamping statements of `CameraPitch` in `rcamera.h`. -/
def cameraPitchClampedAngle (camera : rl_Camera3D) (angle : ℝ) (lockView : Bool) : ℝ :=
  if lockView then
    let up := GetCameraUp camera
    let targetPosition := Vector3Subtract camera.target camera.position
    let maxAngleUp := Vector3Angle up targetPosition - 0.001
    let angle := if angle > maxAngleUp then maxAngleUp else angle
    let maxAngleDown := -(Vector3Angle (Vector3Negate up) targetPosition) + 0.001
    if angle < maxAngleDown then maxAngleDown else angle
  else angle

/-- Rotates the camera's stored up vector about its forward vector, from
`CameraRoll` in `rcamera.h`. -/
def CameraRoll (camera : rl_Camera3D) (angle : ℝ) : rl_Camera3D :=
  { camera with
    up := Vector3RotateByAxisAngle camera.up (GetCameraForward camera) angle }

/-- Camera mode `CAMERA_CUSTOM` from `rcamera.h`. -/
def CAMERA_CUSTOM : ℤ := 0

/-- Camera mode `CAMERA_FREE` from `rcamera.h`. -/
def CAMERA_FREE : ℤ := 1

/-- Camera mode `CAMERA_ORBITAL` from `rcamera.h`. -/
def CAMERA_ORBITAL : ℤ := 2

/-- Camera mode `CAMERA_FIRST_PERSON` from `rcamera.h`. -/
def CAMERA_FIRST_PERSON : ℤ := 3

/-- Camera mode `CAMERA_THIRD_PERSON` from `rcamera.h`. -/
def CAMERA_THIRD_PERSON : ℤ := 4

/-- Key code `KEY_DOWN` from `raylib.h`. -/
def KEY_DOWN : ℤ := 264

/-- Key code `KEY_UP` from `raylib.h`. -/
def KEY_UP : ℤ := 265

/-- Key code `KEY_RIGHT` from `raylib.h`. -/
def KEY_RIGHT : ℤ := 262

/-- Key code `KEY_LEFT` from `raylib.h`. -/
def KEY_LEFT : ℤ := 263

/-- Key code `KEY_Q` from `raylib.h`. -/
def KEY_Q : ℤ := 81

/-- Key code `KEY_E` from `raylib.h`. -/
def KEY_E : ℤ := 69

/-- Key code `KEY_W` from `raylib.h`. -/
def KEY_W : ℤ := 87

/-- Key code `KEY_A` from `raylib.h`. -/
def KEY_A : ℤ := 65

/-- Key code `KEY_S` from `raylib.h`. -/
def KEY_S : ℤ := 83

/-- Key code `KEY_D` from `raylib.h`. -/
def KEY_D : ℤ := 68

/-- Key code `KEY_SPACE` from `raylib.h`. -/
def KEY_SPACE : ℤ := 32

/-- Key code `KEY_LEFT_CONTROL` from `raylib.h`. -/
def KEY_LEFT_CONTROL : ℤ := 341

/-- Key code `KEY_KP_SUBTRACT` from `raylib.h`. -/
def KEY_KP_SUBTRACT : ℤ := 333

/-- Key code `KEY_KP_ADD` from `raylib.h`. -/
def KEY_KP_ADD : ℤ := 334

/-- Mouse button code `MOUSE_BUTTON_MIDDLE` from `raylib.h`. -/
def MOUSE_BUTTON_MIDDLE : ℤ := 2

/-- Gamepad axis `GAMEPAD_AXIS_LEFT_X` from `raylib.h`. -/
def GAMEPAD_AXIS_LEFT_X : ℤ := 0

/-- Gamepad axis `GAMEPAD_AXIS_LEFT_Y` from `raylib.h`. -/
def GAMEPAD_AXIS_LEFT_Y : ℤ := 1

/-- Gamepad axis `GAMEPAD_AXIS_RIGHT_X` from `raylib.h`. -/
def GAMEPAD_AXIS_RIGHT_X : ℤ := 2

/-- Gamepad axis `GAMEPAD_AXIS_RIGHT_Y` from `raylib.h`. -/
def GAMEPAD_AXIS_RIGHT_Y : ℤ := 3

/-- Movement speed constant `CAMERA_MOVE_SPEED` from `rcamera.h`. -/
def CAMERA_MOVE_SPEED : ℝ := 5.4

/-- Rotation speed constant `CAMERA_ROTATION_SPEED` from `rcamera.h`. -/
def CAMERA_ROTATION_SPEED : ℝ := 0.03

/-- Pan speed constant `CAMERA_PAN_SPEED` from `rcamera.h`. -/
def CAMERA_PAN_SPEED : ℝ := 0.2

/-- Mouse sensitivity constant `CAMERA_MOUSE_MOVE_SENSITIVITY` from `rcamera.h`. -/
def CAMERA_MOUSE_MOVE_SENSITIVITY : ℝ := 0.003

/-- Orbital speed constant `CAMERA_ORBITAL_SPEED` from `rcamera.h`. -/
def CAMERA_ORBITAL_SPEED : ℝ := 0.5

set_option genSizeOfSpec false in
set_option genInjectivity false in
/-- Input environment consumed by the mode-driven update: per-frame mouse
delta (as its two components) and wheel move, key and mouse-button state,
gamepad availability and axis values, and the frame time, per the external
interfaces of the spec. -/
structure rl_CameraInput where
  mouseDeltaX : ℝ
  mouseDeltaY : ℝ
  mouseWheelMove : ℝ
  isKeyDown : ℤ → Bool
  isKeyPressed : ℤ → Bool
  isMouseButtonDown : ℤ → Bool
  isGamepadAvailable : ℤ → Bool
  gamepadAxisMovement : ℤ → ℤ → ℝ
  frameTime : ℝ

/-- Shared input-driven branch of `rl_UpdateCamera` in `rcamera.h` (the
branch taken by FREE, FIRST_PERSON, THIRD_PERSON and unrecognized modes):
keyboard rotation, mouse pan or look, keyboard movement, gamepad look and
movement, and FREE-mode vertical movement. -/
def cameraGenericUpdate (env : rl_CameraInput) (camera : rl_Camera3D)
    (isFree moveInWorldPlane rotateAroundTarget lockView rotateUp : Bool)
    (cameraMoveSpeed cameraRotationSpeed cameraPanSpeed : ℝ) : rl_Camera3D :=
  let camera := if env.isKeyDown KEY_DOWN then CameraPitch camera (-cameraRotationSpeed) lockView rotateAroundTarget rotateUp else camera
  let camera := if env.isKeyDown KEY_UP then CameraPitch camera cameraRotationSpeed lockView rotateAroundTarget rotateUp else camera
  let camera := if env.isKeyDown KEY_RIGHT then CameraYaw camera (-cameraRotationSpeed) rotateAroundTarget else camera
  let camera := if env.isKeyDown KEY_LEFT then CameraYaw camera cameraRotationSpeed rotateAroundTarget else camera
  let camera := if env.isKeyDown KEY_Q then CameraRoll camera (-cameraRotationSpeed) else camera
  let camera := if env.isKeyDown KEY_E then CameraRoll camera cameraRotationSpeed else camera
  let camera :=
    if isFree ∧ env.isMouseButtonDown MOUSE_BUTTON_MIDDLE then
      let camera := if env.mouseDeltaX > 0 then CameraMoveRight camera cameraPanSpeed moveInWorldPlane else camera
      let camera := if env.mouseDeltaX < 0 then CameraMoveRight camera (-cameraPanSpeed) moveInWorldPlane else camera
      let camera := if env.mouseDeltaY > 0 then CameraMoveUp camera (-cameraPanSpeed) else camera
      let camera := if env.mouseDeltaY < 0 then CameraMoveUp camera cameraPanSpeed else camera
      camera
    else
      let camera := CameraYaw camera (-env.mouseDeltaX * CAMERA_MOUSE_MOVE_SENSITIVITY) rotateAroundTarget
      CameraPitch camera (-env.mouseDeltaY * CAMERA_MOUSE_MOVE_SENSITIVITY) lockView rotateAroundTarget rotateUp
  let camera := if env.isKeyDown KEY_W then CameraMoveForward camera cameraMoveSpeed moveInWorldPlane else camera
  let camera := if env.isKeyDown KEY_A then CameraMoveRight camera (-cameraMoveSpeed) moveInWorldPlane else camera
  let camera := if env.isKeyDown KEY_S then CameraMoveForward camera (-cameraMoveSpeed) moveInWorldPlane else camera
  let camera := if env.isKeyDown KEY_D then CameraMoveRight camera cameraMoveSpeed moveInWorldPlane else camera
  let camera :=
    if env.isGamepadAvailable 0 then
      let camera := CameraYaw camera (-(env.gamepadAxisMovement 0 GAMEPAD_AXIS_RIGHT_X * 2) * CAMERA_MOUSE_MOVE_SENSITIVITY) rotateAroundTarget
      let camera := CameraPitch camera (-(env.gamepadAxisMovement 0 GAMEPAD_AXIS_RIGHT_Y * 2) * CAMERA_MOUSE_MOVE_SENSITIVITY) lockView rotateAroundTarget rotateUp
      let camera := if env.gamepadAxisMovement 0 GAMEPAD_AXIS_LEFT_Y ≤ -0.25 then CameraMoveForward camera cameraMoveSpeed moveInWorldPlane else camera
      let camera := if env.gamepadAxisMovement 0 GAMEPAD_AXIS_LEFT_X ≤ -0.25 then CameraMoveRight camera (-cameraMoveSpeed) moveInWorldPlane else camera
      let camera := if env.gamepadAxisMovement 0 GAMEPAD_AXIS_LEFT_Y ≥ 0.25 then CameraMoveForward camera (-cameraMoveSpeed) moveInWorldPlane else camera
      let camera := if env.gamepadAxisMovement 0 GAMEPAD_AXIS_LEFT_X ≥ 0.25 then CameraMoveRight camera cameraMoveSpeed moveInWorldPlane else camera
      camera
    else camera
  if isFree then
    let camera := if env.isKeyDown KEY_SPACE then CameraMoveUp camera cameraMoveSpeed else camera
    if env.isKeyDown KEY_LEFT_CONTROL then CameraMoveUp camera (-cameraMoveSpeed) else camera
  else camera

/-- Orbital branch of `rl_UpdateCamera` in `rcamera.h`.  Modelled from the
spec for the matrix primitives: the `MatrixRotate` and `Vector3Transform`
pair (arbitrary-axis rotation matrix applied to the view vector) is the
axis-angle rotation of the view vector about the camera up vector. -/
def cameraOrbitalUpdate (camera : rl_Camera3D) (cameraOrbitalSpeed : ℝ) : rl_Camera3D :=
  let view := Vector3Subtract camera.position camera.target
  let view := Vector3RotateByAxisAngle view (GetCameraUp camera) cameraOrbitalSpeed
  { camera with position := Vector3Add camera.target view }

/-- Zoom tail of `rl_UpdateCamera` in `rcamera.h`, applied in THIRD_PERSON,
ORBITAL and FREE modes: mouse wheel plus keypad add/subtract zoom steps. -/
def cameraZoomUpdate (env : rl_CameraInput) (camera : rl_Camera3D) : rl_Camera3D :=
  let camera := CameraMoveToTarget camera (-env.mouseWheelMove)
  let camera := if env.isKeyPressed KEY_KP_SUBTRACT then CameraMoveToTarget camera 2.0 else camera
  if env.isKeyPressed KEY_KP_ADD then CameraMoveToTarget camera (-2.0) else camera

/-- Mode-driven camera update, from `rl_UpdateCamera` in `rcamera.h`:
computes the policy flags from the mode, dispatches CUSTOM (no branch),
ORBITAL, or the shared input-driven branch, then applies the zoom tail for
THIRD_PERSON, ORBITAL and FREE. -/
def rl_UpdateCamera (env : rl_CameraInput) (camera : rl_Camera3D) (mode : ℤ) : rl_Camera3D :=
  let moveInWorldPlane : Bool := decide (mode = CAMERA_FIRST_PERSON ∨ mode = CAMERA_THIRD_PERSON)
  let rotateAroundTarget : Bool := decide (mode = CAMERA_THIRD_PERSON ∨ mode = CAMERA_ORBITAL)
  let lockView : Bool := decide (mode = CAMERA_FREE ∨ mode = CAMERA_FIRST_PERSON ∨ mode = CAMERA_THIRD_PERSON ∨ mode = CAMERA_ORBITAL)
  let rotateUp : Bool := false
  let cameraMoveSpeed := CAMERA_MOVE_SPEED * env.frameTime
  let cameraRotationSpeed := CAMERA_ROTATION_SPEED * env.frameTime
  let cameraPanSpeed := CAMERA_PAN_SPEED * env.frameTime
  let cameraOrbitalSpeed := CAMERA_ORBITAL_SPEED * env.frameTime
  let camera :=
    if mode = CAMERA_CUSTOM then camera
    else if mode = CAMERA_ORBITAL then cameraOrbitalUpdate camera cameraOrbitalSpeed
    else cameraGenericUpdate env camera (decide (mode = CAMERA_FREE)) moveInWorldPlane
      rotateAroundTarget lockView rotateUp cameraMoveSpeed cameraRotationSpeed cameraPanSpeed
  if mode = CAMERA_THIRD_PERSON ∨ mode = CAMERA_ORBITAL ∨ mode = CAMERA_FREE then
    cameraZoomUpdate env camera
  else camera

/-- Parametrized camera update, from `rl_UpdateCameraPro` in `rcamera.h`:
fixed policy flags, rotation in degrees applied pitch, yaw, roll, then
forward/right/up movement, then zoom towards the target. -/
def rl_UpdateCameraPro (camera : rl_Camera3D) (movement rotation : rl_Vector3)
    (zoom : ℝ) : rl_Camera3D :=
  let lockView := true
  let rotateAroundTarget := false
  let rotateUp := false
  let moveInWorldPlane := true
  let camera := CameraPitch camera (-rotation.y * rl_DEG2RAD) lockView rotateAroundTarget rotateUp
  let camera := CameraYaw camera (-rotation.x * rl_DEG2RAD) rotateAroundTarget
  let camera := CameraRoll camera (rotation.z * rl_DEG2RAD)
  let camera := CameraMoveForward camera movement.x moveInWorldPlane
  let camera := CameraMoveRight camera movement.y moveInWorldPlane
  let camera := CameraMoveUp camera movement.z
  CameraMoveToTarget camera zoom

/-- World-plane projection policy as worded by the spec: zero out whichever
axis component of the vector is most aligned with up, determined by which
absolute up component exceeds 0.7071, defaulting to the y component. -/
def specWorldPlaneProject (up v : rl_Vector3) : rl_Vector3 :=
  if |up.z| > 0.7071 then ⟨v.x, v.y, 0⟩
  else if |up.x| > 0.7071 then ⟨0, v.y, v.z⟩
  else ⟨v.x, 0, v.z⟩

/-- Direction along which `CameraMoveForward` translates the camera. -/
def cameraMoveForwardDir (camera : rl_Camera3D) (moveInWorldPlane : Bool) : rl_Vector3 :=
  if moveInWorldPlane then
    Vector3Normalize (specWorldPlaneProject camera.up (GetCameraForward camera))
  else GetCameraForward camera

/-- Direction along which `CameraMoveRight` translates the camera. -/
def cameraMoveRightDir (camera : rl_Camera3D) (moveInWorldPlane : Bool) : rl_Vector3 :=
  if moveInWorldPlane then
    Vector3Normalize (specWorldPlaneProject camera.up (GetCameraRight camera))
  else GetCameraRight camera

/-- Degenerate camera looking straight along its own up vector. -/
def cameraAtPole : rl_Camera3D :=
  ⟨⟨0, 0, 0⟩, ⟨0, 1, 0⟩, ⟨0, 1, 0⟩, 45, 0⟩

/-- Camera at position `(0,0,10)` looking at the origin. -/
def cameraOnZAxis : rl_Camera3D :=
  ⟨⟨0, 0, 10⟩, ⟨0, 0, 0⟩, ⟨0, 1, 0⟩, 45, 0⟩

/-- Camera at the origin looking down the negative z axis. -/
def cameraLookingMinusZ : rl_Camera3D :=
  ⟨⟨0, 0, 0⟩, ⟨0, 0, -1⟩, ⟨0, 1, 0⟩, 45, 0⟩

/-- Camera at the origin whose view direction is only 0.0005 radians away
from its up axis. -/
def cameraNearPole : rl_Camera3D :=
  ⟨⟨0, 0, 0⟩, ⟨Real.sin 0.0005, Real.cos 0.0005, 0⟩, ⟨0, 1, 0⟩, 45, 0⟩

/-- Input environment with the W key held down, one second of frame time,
and every other input silent. -/
def envOnlyKeyW : rl_CameraInput :=
  { mouseDeltaX := 0
    mouseDeltaY := 0
    mouseWheelMove := 0
    isKeyDown := fun k => decide (k = KEY_W)
    isKeyPressed := fun _ => false
    isMouseButtonDown := fun _ => false
    isGamepadAvailable := fun _ => false
    gamepadAxisMovement := fun _ _ => 0
    frameTime := 1 }

theorem v3_length_sq (v : rl_Vector3) : Vector3Length v ^ 2 = Vector3DotProduct v v :=
  Real.sq_sqrt (by
    simp only [Vector3DotProduct]
    nlinarith [sq_nonneg v.x, sq_nonneg v.y, sq_nonneg v.z])

theorem v3_length_zero : Vector3Length Vector3Zero = 0 := by
  simp [Vector3Length, Vector3DotProduct, Vector3Zero]

theorem v3_length_pos (v : rl_Vector3) (h : v ≠ Vector3Zero) : 0 < Vector3Length v := by
  refine lt_of_le_of_ne (show (0 : ℝ) ≤ Vector3Length v from Real.sqrt_nonneg _)
    (fun he => h ?_)
  have h2 : Vector3DotProduct v v = 0 := by
    rw [← v3_length_sq, ← he]
    norm_num
  simp only [Vector3DotProduct] at h2
  have hx : v.x ^ 2 = 0 :=
    le_antisymm (by nlinarith [sq_nonneg v.y, sq_nonneg v.z]) (sq_nonneg _)
  have hy : v.y ^ 2 = 0 :=
    le_antisymm (by nlinarith [sq_nonneg v.x, sq_nonneg v.z]) (sq_nonneg _)
  have hz : v.z ^ 2 = 0 :=
    le_antisymm (by nlinarith [sq_nonneg v.x, sq_nonneg v.y]) (sq_nonneg _)
  ext
  · exact pow_eq_zero_iff two_ne_zero |>.mp hx
  · exact pow_eq_zero_iff two_ne_zero |>.mp hy
  · exact pow_eq_zero_iff two_ne_zero |>.mp hz

theorem v3_length_ne_zero (v : rl_Vector3) (h : v ≠ Vector3Zero) : Vector3Length v ≠ 0 :=
  (v3_length_pos v h).ne'

theorem v3_ne_zero_of_length (v : rl_Vector3) (h : Vector3Length v ≠ 0) : v ≠ Vector3Zero :=
  fun he => h (he ▸ v3_length_zero)

theorem v3_length_scale (v : rl_Vector3) (c : ℝ) :
    Vector3Length (Vector3Scale v c) = |c| * Vector3Length v := by
  simp only [Vector3Length, Vector3Scale, Vector3DotProduct]
  rw [show v.x * c * (v.x * c) + v.y * c * (v.y * c) + v.z * c * (v.z * c)
      = c ^ 2 * (v.x * v.x + v.y * v.y + v.z * v.z) by ring]
  rw [Real.sqrt_mul (sq_nonneg c), Real.sqrt_sq_eq_abs]

theorem v3_scale_one (v : rl_Vector3) : Vector3Scale v 1 = v := by
  ext <;> simp [Vector3Scale]

theorem v3_scale_ne_zero (v : rl_Vector3) (c : ℝ) (hv : v ≠ Vector3Zero) (hc : c ≠ 0) :
    Vector3Scale v c ≠ Vector3Zero := by
  apply v3_ne_zero_of_length
  rw [v3_length_scale]
  exact mul_ne_zero (abs_ne_zero.mpr hc) (v3_length_ne_zero v hv)

theorem v3_normalize_of_ne (v : rl_Vector3) (h : v ≠ Vector3Zero) :
    Vector3Normalize v = Vector3Scale v (1 / Vector3Length v) := by
  rw [Vector3Normalize, if_neg (v3_length_ne_zero v h)]

theorem v3_length_normalize (v : rl_Vector3) (h : v ≠ Vector3Zero) :
    Vector3Length (Vector3Normalize v) = 1 := by
  have hL := v3_length_pos v h
  rw [v3_normalize_of_ne v h, v3_length_scale, abs_of_pos (by positivity)]
  field_simp

theorem v3_dot_comm (a b : rl_Vector3) : Vector3DotProduct a b = Vector3DotProduct b a := by
  simp only [Vector3DotProduct]; ring

theorem v3_dot_scale_right (u v : rl_Vector3) (c : ℝ) :
    Vector3DotProduct u (Vector3Scale v c) = c * Vector3DotProduct u v := by
  simp only [Vector3DotProduct, Vector3Scale]; ring

theorem v3_dot_scale_left (u v : rl_Vector3) (c : ℝ) :
    Vector3DotProduct (Vector3Scale u c) v = c * Vector3DotProduct u v := by
  simp only [Vector3DotProduct, Vector3Scale]; ring

theorem v3_dot_add_right (u a b : rl_Vector3) :
    Vector3DotProduct u (Vector3Add a b) = Vector3DotProduct u a + Vector3DotProduct u b := by
  simp only [Vector3DotProduct, Vector3Add]; ring

theorem v3_cross_scale_left (a b : rl_Vector3) (c : ℝ) :
    Vector3CrossProduct (Vector3Scale a c) b = Vector3Scale (Vector3CrossProduct a b) c := by
  ext <;> simp only [Vector3CrossProduct, Vector3Scale] <;> ring

theorem v3_lagrange (a b : rl_Vector3) :
    Vector3DotProduct (Vector3CrossProduct a b) (Vector3CrossProduct a b)
      = Vector3DotProduct a a * Vector3DotProduct b b - Vector3DotProduct a b ^ 2 := by
  simp only [Vector3DotProduct, Vector3CrossProduct]; ring

theorem v3_rotate_zero (v axis : rl_Vector3) : Vector3RotateByAxisAngle v axis 0 = v := by
  by_cases h : Vector3Length axis = 0
  · simp [Vector3RotateByAxisAngle, h]
  · simp only [Vector3RotateByAxisAngle, if_neg h]
    ext <;>
      simp only [Vector3Add, Vector3Scale, Vector3CrossProduct, Vector3DotProduct,
        Real.cos_zero, Real.sin_zero] <;>
      ring

theorem v3_rotate_dot (v w axis : rl_Vector3) (θ : ℝ) :
    Vector3DotProduct (Vector3RotateByAxisAngle v axis θ) (Vector3RotateByAxisAngle w axis θ)
      = Vector3DotProduct v w := by
  by_cases h : Vector3Length axis = 0
  · simp [Vector3RotateByAxisAngle, h]
  · have hk : Vector3DotProduct (Vector3Scale axis (1 / Vector3Length axis))
        (Vector3Scale axis (1 / Vector3Length axis)) = 1 := by
      have h2 := v3_length_sq axis
      rw [v3_dot_scale_left, v3_dot_scale_right, ← h2]
      field_simp
      ring
    have hsc := Real.sin_sq_add_cos_sq θ
    simp only [Vector3RotateByAxisAngle, if_neg h]
    set k := Vector3Scale axis (1 / Vector3Length axis) with hk_def
    set s := Real.sin θ with hs_def
    set c := Real.cos θ with hc_def
    simp only [Vector3DotProduct, Vector3Add, Vector3Scale, Vector3CrossProduct] at hk ⊢
    linear_combination
      (v.x * w.x + v.y * w.y + v.z * w.z
        - (k.x * v.x + k.y * v.y + k.z * v.z) * (k.x * w.x + k.y * w.y + k.z * w.z)) * hsc +
      (s ^ 2 * (v.x * w.x + v.y * w.y + v.z * w.z)
        + (1 - c) ^ 2 * (k.x * v.x + k.y * v.y + k.z * v.z)
          * (k.x * w.x + k.y * w.y + k.z * w.z)) * hk

theorem v3_length_rotate (v axis : rl_Vector3) (θ : ℝ) :
    Vector3Length (Vector3RotateByAxisAngle v axis θ) = Vector3Length v := by
  simp only [Vector3Length, v3_rotate_dot]

theorem v3_angle_neg_left (v w : rl_Vector3) :
    Vector3Angle (Vector3Negate v) w = Real.pi - Vector3Angle v w := by
  simp only [Vector3Angle, Vector3Negate, Vector3DotProduct, Vector3Length]
  rw [show -v.x * w.x + -v.y * w.y + -v.z * w.z
      = -(v.x * w.x + v.y * w.y + v.z * w.z) by ring]
  rw [show -v.x * -v.x + -v.y * -v.y + -v.z * -v.z
      = v.x * v.x + v.y * v.y + v.z * v.z by ring]
  rw [neg_div, Real.arccos_neg]

theorem v3_angle_normalize_right (v w : rl_Vector3) (h : w ≠ Vector3Zero) :
    Vector3Angle v (Vector3Normalize w) = Vector3Angle v w := by
  have hL := v3_length_pos w h
  have hc : (0 : ℝ) < 1 / Vector3Length w := by positivity
  rw [v3_normalize_of_ne w h]
  simp only [Vector3Angle, v3_length_scale, abs_of_pos hc, v3_dot_scale_right]
  congr 1
  rw [show Vector3Length v * (1 / Vector3Length w * Vector3Length w)
      = Vector3Length v * Vector3Length w * (1 / Vector3Length w) by ring]
  rw [mul_comm (1 / Vector3Length w) (Vector3DotProduct v w),
    mul_div_mul_right _ _ hc.ne']

theorem v3_angle_normalize_left (v w : rl_Vector3) (h : v ≠ Vector3Zero) :
    Vector3Angle (Vector3Normalize v) w = Vector3Angle v w := by
  have hL := v3_length_pos v h
  have hc : (0 : ℝ) < 1 / Vector3Length v := by positivity
  rw [v3_normalize_of_ne v h]
  simp only [Vector3Angle, v3_length_scale, abs_of_pos hc, v3_dot_scale_left]
  congr 1
  rw [show 1 / Vector3Length v * Vector3Length v * Vector3Length w
      = Vector3Length v * Vector3Length w * (1 / Vector3Length v) by ring]
  rw [mul_comm (1 / Vector3Length v) (Vector3DotProduct v w),
    mul_div_mul_right _ _ hc.ne']

theorem v3_cross_zero_left (b : rl_Vector3) :
    Vector3CrossProduct Vector3Zero b = Vector3Zero := by
  ext <;> simp [Vector3CrossProduct, Vector3Zero]

theorem v3_cross_zero_right (a : rl_Vector3) :
    Vector3CrossProduct a Vector3Zero = Vector3Zero := by
  ext <;> simp [Vector3CrossProduct, Vector3Zero]

theorem pitch_angle_formula (up tp : rl_Vector3) (θ : ℝ)
    (hw0 : Vector3CrossProduct tp up ≠ Vector3Zero)
    (h0 : 0 ≤ Vector3Angle (Vector3Normalize up) tp - θ)
    (hπ : Vector3Angle (Vector3Normalize up) tp - θ ≤ Real.pi) :
    Vector3Angle (Vector3Normalize up)
      (Vector3RotateByAxisAngle tp
        (Vector3Normalize
          (Vector3CrossProduct (Vector3Normalize tp) (Vector3Normalize up))) θ)
      = Vector3Angle (Vector3Normalize up) tp - θ := by
  have htp : tp ≠ Vector3Zero := by
    rintro rfl
    exact hw0 (v3_cross_zero_left up)
  have hup : up ≠ Vector3Zero := by
    rintro rfl
    exact hw0 (v3_cross_zero_right tp)
  set u := Vector3Normalize up with hu_def
  have hLu : Vector3Length u = 1 := v3_length_normalize up hup
  have hn : 0 < Vector3Length tp := v3_length_pos tp htp
  set n := Vector3Length tp with hn_def
  have hLup : 0 < Vector3Length up := v3_length_pos up hup
  have hw_eq : Vector3CrossProduct tp u
      = Vector3Scale (Vector3CrossProduct tp up) (1 / Vector3Length up) := by
    rw [hu_def, v3_normalize_of_ne up hup]
    ext <;> simp only [Vector3CrossProduct, Vector3Scale] <;> ring
  have hw' : Vector3CrossProduct tp u ≠ Vector3Zero := by
    rw [hw_eq]
    exact v3_scale_ne_zero _ _ hw0 (by positivity)
  set w := Vector3CrossProduct tp u with hw_def
  have hm : 0 < Vector3Length w := v3_length_pos w hw'
  set m := Vector3Length w with hm_def
  have hcross_f : Vector3CrossProduct (Vector3Normalize tp) u = Vector3Scale w (1 / n) := by
    rw [v3_normalize_of_ne tp htp, v3_cross_scale_left, ← hw_def]
  have haxis : Vector3Normalize (Vector3CrossProduct (Vector3Normalize tp) u)
      = Vector3Normalize w := by
    rw [hcross_f]
    have hw_len := v3_length_pos w hw'
    have hc : (0 : ℝ) < 1 / n := by positivity
    have hsc : Vector3Scale w (1 / n) ≠ Vector3Zero := v3_scale_ne_zero w _ hw' hc.ne'
    rw [v3_normalize_of_ne _ hsc, v3_normalize_of_ne w hw', v3_length_scale, abs_of_pos hc]
    have hn_ne : n ≠ 0 := hn.ne'
    have hw_ne : Vector3Length w ≠ 0 := hw_len.ne'
    ext <;> simp only [Vector3Scale] <;> field_simp <;> ring
  set r := Vector3Normalize w with hr_def
  have hr_len : Vector3Length r = 1 := v3_length_normalize w hw'
  have hr_eq : r = Vector3Scale w (1 / m) := v3_normalize_of_ne w hw'
  have hd_r_tp : Vector3DotProduct r tp = 0 := by
    have hdc : Vector3DotProduct (Vector3CrossProduct tp u) tp = 0 := by
      simp only [Vector3DotProduct, Vector3CrossProduct]
      ring
    rw [hr_eq, v3_dot_scale_left, hw_def, hdc, mul_zero]
  have hrot : Vector3RotateByAxisAngle tp r θ =
      Vector3Add
        (Vector3Add (Vector3Scale tp (Real.cos θ))
          (Vector3Scale (Vector3CrossProduct r tp) (Real.sin θ)))
        (Vector3Scale r (Vector3DotProduct r tp * (1 - Real.cos θ))) := by
    rw [Vector3RotateByAxisAngle, if_neg (by rw [hr_len]; norm_num)]
    simp only [hr_len, one_div_one, v3_scale_one]
  have hww : Vector3DotProduct w w = m ^ 2 := (v3_length_sq w).symm
  have hd : Vector3DotProduct u (Vector3RotateByAxisAngle tp r θ)
      = Real.cos θ * Vector3DotProduct u tp + Real.sin θ * m := by
    rw [hrot, v3_dot_add_right, v3_dot_add_right, v3_dot_scale_right, v3_dot_scale_right,
      v3_dot_scale_right, hd_r_tp]
    have h1 : Vector3DotProduct u (Vector3CrossProduct r tp) = m := by
      have htc : Vector3DotProduct u (Vector3CrossProduct (Vector3CrossProduct tp u) tp)
          = Vector3DotProduct (Vector3CrossProduct tp u) (Vector3CrossProduct tp u) := by
        simp only [Vector3DotProduct, Vector3CrossProduct]
        ring
      rw [hr_eq, v3_cross_scale_left, v3_dot_scale_right, hw_def, htc,
        ← hw_def, hww]
      field_simp
      ring
    rw [h1]
    ring
  have huu : Vector3DotProduct u u = 1 := by
    have h1 := v3_length_sq u
    rw [hLu] at h1
    simpa using h1.symm
  have htt : Vector3DotProduct tp tp = n ^ 2 := (v3_length_sq tp).symm
  set d := Vector3DotProduct u tp with hd_def
  have hm2 : m ^ 2 = n ^ 2 - d ^ 2 := by
    have hl := v3_lagrange tp u
    rw [← hw_def, huu, htt, v3_dot_comm tp u, ← hd_def, hww] at hl
    rw [hl]
    ring
  have hd2 : d ^ 2 < n ^ 2 := by nlinarith [hm2, hm]
  have hdn1 : -1 ≤ d / n := by
    rw [le_div_iff hn]
    nlinarith [sq_nonneg (d + n)]
  have hdn2 : d / n ≤ 1 := by
    rw [div_le_one hn]
    nlinarith [sq_nonneg (d - n)]
  have hphi : Vector3Angle u tp = Real.arccos (d / n) := by
    simp only [Vector3Angle, hLu, one_mul, ← hd_def, ← hn_def]
  have hcosphi : Real.cos (Vector3Angle u tp) = d / n := by
    rw [hphi, Real.cos_arccos hdn1 hdn2]
  have hsinphi : Real.sin (Vector3Angle u tp) = m / n := by
    rw [hphi, Real.sin_arccos]
    have h1 : 1 - (d / n) ^ 2 = (m / n) ^ 2 := by
      field_simp
      nlinarith [hm2]
    rw [h1, Real.sqrt_sq_eq_abs, abs_of_pos (by positivity)]
  have hLrot : Vector3Length (Vector3RotateByAxisAngle tp r θ) = n := by
    rw [v3_length_rotate, ← hn_def]
  rw [haxis]
  simp only [Vector3Angle, hLu, one_mul, hLrot, hd, ← hd_def]
  have harg : (Real.cos θ * d + Real.sin θ * m) / n = Real.cos (Vector3Angle u tp - θ) := by
    rw [Real.cos_sub, hcosphi, hsinphi]
    field_simp
    ring
  rw [harg, Real.arccos_cos h0 hπ, ← hn_def, ← hphi]

theorem v3_sub_eq_zero_iff (a b : rl_Vector3) :
    Vector3Subtract a b = Vector3Zero ↔ a = b := by
  constructor
  · intro h
    have hx := congrArg rl_Vector3.x h
    have hy := congrArg rl_Vector3.y h
    have hz := congrArg rl_Vector3.z h
    simp only [Vector3Subtract, Vector3Zero] at hx hy hz
    ext <;> linarith
  · rintro rfl
    ext <;> simp [Vector3Subtract, Vector3Zero]

theorem v3_sub_add_right_cancel (a b v : rl_Vector3) :
    Vector3Subtract (Vector3Add a v) (Vector3Add b v) = Vector3Subtract a b := by
  ext <;> simp only [Vector3Subtract, Vector3Add] <;> ring

theorem v3_sub_sub_cancel (t X : rl_Vector3) :
    Vector3Subtract t (Vector3Subtract t X) = X := by
  ext <;> simp only [Vector3Subtract] <;> ring

theorem v3_add_sub_cancel_left (p X : rl_Vector3) :
    Vector3Subtract (Vector3Add p X) p = X := by
  ext <;> simp only [Vector3Subtract, Vector3Add] <;> ring

theorem v3_add_sub_self (p t : rl_Vector3) :
    Vector3Add p (Vector3Subtract t p) = t := by
  ext <;> simp only [Vector3Subtract, Vector3Add] <;> ring

theorem v3_distance_pos (a b : rl_Vector3) (h : a ≠ b) : 0 < Vector3Distance a b := by
  apply v3_length_pos
  intro he
  exact h ((v3_sub_eq_zero_iff b a).mp he).symm

theorem v3_rotate_ne_zero (v axis : rl_Vector3) (θ : ℝ) (h : v ≠ Vector3Zero) :
    Vector3RotateByAxisAngle v axis θ ≠ Vector3Zero := by
  apply v3_ne_zero_of_length
  rw [v3_length_rotate]
  exact v3_length_ne_zero v h

theorem camera_move_forward_unfold (cam : rl_Camera3D) (d : ℝ) (flag : Bool) :
    CameraMoveForward cam d flag =
      { cam with
        position := Vector3Add cam.position (Vector3Scale (cameraMoveForwardDir cam flag) d)
        target := Vector3Add cam.target (Vector3Scale (cameraMoveForwardDir cam flag) d) } := by
  cases flag <;> rfl

theorem camera_move_right_unfold (cam : rl_Camera3D) (d : ℝ) (flag : Bool) :
    CameraMoveRight cam d flag =
      { cam with
        position := Vector3Add cam.position (Vector3Scale (cameraMoveRightDir cam flag) d)
        target := Vector3Add cam.target (Vector3Scale (cameraMoveRightDir cam flag) d) } := by
  cases flag <;> rfl

theorem camera_move_to_target_distance_eq (cam : rl_Camera3D)
    (hp : cam.position ≠ cam.target) (delta : ℝ) :
    Vector3Distance (CameraMoveToTarget cam delta).position
        (CameraMoveToTarget cam delta).target
      = if Vector3Distance cam.position cam.target + delta ≤ 0 then 0.001
        else Vector3Distance cam.position cam.target + delta := by
  have ht_ne : Vector3Subtract cam.target cam.position ≠ Vector3Zero := by
    intro h
    exact hp ((v3_sub_eq_zero_iff _ _).mp h).symm
  have hf1 : Vector3Length (GetCameraForward cam) = 1 := v3_length_normalize _ ht_ne
  set dist : ℝ := if Vector3Distance cam.position cam.target + delta ≤ 0 then 0.001
    else Vector3Distance cam.position cam.target + delta with hdist_def
  have hdist_pos : 0 < dist := by
    rw [hdist_def]
    split_ifs with h
    · norm_num
    · exact not_le.mp h
  have hpos_eq : (CameraMoveToTarget cam delta).position
      = Vector3Add cam.target (Vector3Scale (GetCameraForward cam) (-dist)) := by
    rw [hdist_def]
    rfl
  have htgt_eq : (CameraMoveToTarget cam delta).target = cam.target := rfl
  rw [hpos_eq, htgt_eq]
  have hsub : Vector3Subtract cam.target
      (Vector3Add cam.target (Vector3Scale (GetCameraForward cam) (-dist)))
      = Vector3Scale (GetCameraForward cam) dist := by
    ext <;> simp only [Vector3Subtract, Vector3Add, Vector3Scale] <;> ring
  simp only [Vector3Distance, hsub, v3_length_scale, hf1, mul_one, abs_of_pos hdist_pos]

theorem camera_on_z_axis_position_ne :
    cameraOnZAxis.position ≠ cameraOnZAxis.target := by
  intro h
  have hz := congrArg rl_Vector3.z h
  simp only [cameraOnZAxis] at hz
  norm_num at hz

theorem sqrt_hundred : Real.sqrt 100 = 10 := by
  rw [show (100 : ℝ) = 10 ^ 2 by norm_num]
  exact Real.sqrt_sq (by norm_num)

theorem camera_on_z_axis_distance :
    Vector3Distance cameraOnZAxis.position cameraOnZAxis.target = 10 := by
  simp only [cameraOnZAxis, Vector3Distance, Vector3Subtract, Vector3Length, Vector3DotProduct]
  rw [show (0 - 0 : ℝ) * (0 - 0) + (0 - 0) * (0 - 0) + (0 - 10) * (0 - 10) = 100 by norm_num]
  exact sqrt_hundred

/-- Claim C2 (amended): for cameras with position distinct from target, the
distance after `CameraMoveToTarget delta` equals the original distance plus
delta when that sum is positive, and 0.001 otherwise (the code keeps sums
strictly between 0 and 0.001 rather than raising them to 0.001); the
concrete scenario from distance 10 with delta 5 yields position (0,0,15)
at distance 15. -/
theorem camera_move_to_target_distance (cam : rl_Camera3D) (delta : ℝ)
    (hp : cam.position ≠ cam.target) :
    (Vector3Distance (CameraMoveToTarget cam delta).position
        (CameraMoveToTarget cam delta).target
      = if Vector3Distance cam.position cam.target + delta ≤ 0 then 0.001
        else Vector3Distance cam.position cam.target + delta) ∧
    (CameraMoveToTarget cameraOnZAxis 5).position = (⟨0, 0, 15⟩ : rl_Vector3) ∧
    Vector3Distance (CameraMoveToTarget cameraOnZAxis 5).position
      (CameraMoveToTarget cameraOnZAxis 5).target = 15 := by
  refine ⟨camera_move_to_target_distance_eq cam hp delta, ?_, ?_⟩
  · have hfz : GetCameraForward cameraOnZAxis = (⟨0, 0, -1⟩ : rl_Vector3) := by
      have hvec : Vector3Subtract cameraOnZAxis.target cameraOnZAxis.position
          = (⟨0, 0, -10⟩ : rl_Vector3) := by
        ext <;> simp [cameraOnZAxis, Vector3Subtract]
      have hL : Vector3Length (⟨0, 0, -10⟩ : rl_Vector3) = 10 := by
        simp only [Vector3Length, Vector3DotProduct]
        rw [show (0 : ℝ) * 0 + 0 * 0 + -10 * -10 = 100 by norm_num]
        exact sqrt_hundred
      rw [GetCameraForward, hvec, Vector3Normalize, if_neg (by rw [hL]; norm_num), hL]
      ext <;> simp [Vector3Scale] <;> norm_num
    show Vector3Add cameraOnZAxis.target
        (Vector3Scale (GetCameraForward cameraOnZAxis)
          (-(if Vector3Distance cameraOnZAxis.position cameraOnZAxis.target + 5 ≤ 0 then 0.001
             else Vector3Distance cameraOnZAxis.position cameraOnZAxis.target + 5)))
        = (⟨0, 0, 15⟩ : rl_Vector3)
    rw [camera_on_z_axis_distance, if_neg (by norm_num), hfz]
    ext <;> simp [cameraOnZAxis, Vector3Add, Vector3Scale] <;> norm_num
  · rw [camera_move_to_target_distance_eq cameraOnZAxis camera_on_z_axis_position_ne 5,
      camera_on_z_axis_distance, if_neg (by norm_num)]
    norm_num

/-- Witness for C2 at a concrete camera and delta. -/
theorem camera_move_to_target_distance_witness :
    cameraOnZAxis.position ≠ cameraOnZAxis.target ∧
    ((Vector3Distance (CameraMoveToTarget cameraOnZAxis 3).position
        (CameraMoveToTarget cameraOnZAxis 3).target
      = if Vector3Distance cameraOnZAxis.position cameraOnZAxis.target + 3 ≤ 0 then 0.001
        else Vector3Distance cameraOnZAxis.position cameraOnZAxis.target + 3) ∧
    (CameraMoveToTarget cameraOnZAxis 5).position = (⟨0, 0, 15⟩ : rl_Vector3) ∧
    Vector3Distance (CameraMoveToTarget cameraOnZAxis 5).position
      (CameraMoveToTarget cameraOnZAxis 5).target = 15) :=
  ⟨camera_on_z_axis_position_ne,
    camera_move_to_target_distance cameraOnZAxis 3 camera_on_z_axis_position_ne⟩

/-- Counterexample to claim C2 as stated: from distance 10 with delta
−9.9995 the sum 0.0005 is positive, so the code keeps distance 0.0005,
while max(0.001, 0.0005) = 0.001. -/
theorem camera_move_to_target_max_counterexample :
    Vector3Distance (CameraMoveToTarget cameraOnZAxis (-9.9995)).position
        (CameraMoveToTarget cameraOnZAxis (-9.9995)).target
      ≠ max 0.001 (Vector3Distance cameraOnZAxis.position cameraOnZAxis.target + (-9.9995)) := by
  rw [camera_move_to_target_distance_eq cameraOnZAxis camera_on_z_axis_position_ne (-9.9995),
    camera_on_z_axis_distance, if_neg (by norm_num), max_eq_left (by norm_num)]
  norm_num

theorem camera_pitch_forward_vec (cam : rl_Camera3D) (θ : ℝ) (lv rat ru : Bool) :
    Vector3Subtract (CameraPitch cam θ lv rat ru).target (CameraPitch cam θ lv rat ru).position
      = Vector3RotateByAxisAngle (Vector3Subtract cam.target cam.position)
          (GetCameraRight cam) (cameraPitchClampedAngle cam θ lv) := by
  cases lv <;> cases rat <;> cases ru <;>
    first
      | exact v3_add_sub_cancel_left cam.position _
      | exact v3_sub_sub_cancel cam.target _

theorem camera_pitch_up_fixed (cam : rl_Camera3D) (θ : ℝ) (lv rat : Bool) :
    (CameraPitch cam θ lv rat false).up = cam.up := by
  cases lv <;> cases rat <;> rfl

theorem camera_pitch_lock_unfold (cam : rl_Camera3D) (θ : ℝ) (rat ru : Bool) :
    CameraPitch cam θ true rat ru
      = CameraPitch cam (cameraPitchClampedAngle cam θ true) false rat ru := by
  cases rat <;> cases ru <;> rfl

theorem camera_pitch_clamped_angle_eq (cam : rl_Camera3D) (θ : ℝ) :
    cameraPitchClampedAngle cam θ true
      = max (-(Vector3Angle (Vector3Negate (GetCameraUp cam))
              (Vector3Subtract cam.target cam.position)) + 0.001)
          (min θ (Vector3Angle (GetCameraUp cam)
              (Vector3Subtract cam.target cam.position) - 0.001)) := by
  simp only [cameraPitchClampedAngle, if_pos]
  set mu := Vector3Angle (GetCameraUp cam) (Vector3Subtract cam.target cam.position) - 0.001
    with hmu
  set md := -(Vector3Angle (Vector3Negate (GetCameraUp cam))
      (Vector3Subtract cam.target cam.position)) + 0.001 with hmd
  rcases le_or_lt θ mu with h1 | h1
  · rw [if_neg (not_lt.mpr h1), min_eq_left h1]
    rcases le_or_lt md θ with h2 | h2
    · rw [if_neg (not_lt.mpr h2), max_eq_right h2]
    · rw [if_pos h2, max_eq_left h2.le]
  · rw [if_pos h1, min_eq_right h1.le]
    rcases le_or_lt md mu with h2 | h2
    · rw [if_neg (not_lt.mpr h2), max_eq_right h2]
    · rw [if_pos h2, max_eq_left h2.le]

theorem camera_translate_distance (cam : rl_Camera3D) (hp : cam.position ≠ cam.target)
    (v : rl_Vector3) :
    0 < Vector3Distance (Vector3Add cam.position v) (Vector3Add cam.target v) := by
  simp only [Vector3Distance, v3_sub_add_right_cancel]
  apply v3_length_pos
  intro h
  exact hp ((v3_sub_eq_zero_iff _ _).mp h).symm

/-- Claim C4: with `moveInWorldPlane` true, `CameraMoveForward` and
`CameraMoveRight` project the movement vector onto the world plane by
zeroing the axis component most aligned with up (the one whose absolute up
component exceeds 0.7071, defaulting to the y component), renormalize it,
and scale it by the distance before translating position and target. -/
theorem camera_move_world_plane_projection (cam : rl_Camera3D) (d : ℝ) :
    CameraMoveForward cam d true =
      { cam with
        position := Vector3Add cam.position
          (Vector3Scale (Vector3Normalize (specWorldPlaneProject cam.up (GetCameraForward cam))) d)
        target := Vector3Add cam.target
          (Vector3Scale (Vector3Normalize (specWorldPlaneProject cam.up (GetCameraForward cam))) d) } ∧
    CameraMoveRight cam d true =
      { cam with
        position := Vector3Add cam.position
          (Vector3Scale (Vector3Normalize (specWorldPlaneProject cam.up (GetCameraRight cam))) d)
        target := Vector3Add cam.target
          (Vector3Scale (Vector3Normalize (specWorldPlaneProject cam.up (GetCameraRight cam))) d) } :=
  ⟨rfl, rfl⟩

/-- Claim C6: `CameraYaw` with `rotateAroundTarget` true leaves the target
(and up) exactly unchanged, and with `rotateAroundTarget` false leaves the
position (and up) exactly unchanged. -/
theorem camera_yaw_fixed_fields (cam : rl_Camera3D) (angle : ℝ) :
    (CameraYaw cam angle true).target = cam.target ∧
    (CameraYaw cam angle true).up = cam.up ∧
    (CameraYaw cam angle false).position = cam.position ∧
    (CameraYaw cam angle false).up = cam.up :=
  ⟨rfl, rfl, rfl, rfl⟩

/-- Claim C8: `CameraRoll` leaves position and target exactly unchanged and
rotates only the stored up vector about the forward axis. -/
theorem camera_roll_only_up (cam : rl_Camera3D) (angle : ℝ) :
    (CameraRoll cam angle).position = cam.position ∧
    (CameraRoll cam angle).target = cam.target ∧
    (CameraRoll cam angle).up
      = Vector3RotateByAxisAngle cam.up (GetCameraForward cam) angle :=
  ⟨rfl, rfl, rfl⟩

/-- Claim C9: `rl_UpdateCameraPro` uses the fixed policy lockView true,
rotateAroundTarget false, rotateUp false, moveInWorldPlane true, converts
the rotation components from degrees to radians, and applies pitch, yaw,
roll, then forward/right/up movement, then the zoom via `CameraMoveToTarget`. -/
theorem update_camera_pro_composition (cam : rl_Camera3D) (movement rotation : rl_Vector3)
    (zoom : ℝ) :
    rl_UpdateCameraPro cam movement rotation zoom =
      CameraMoveToTarget
        (CameraMoveUp
          (CameraMoveRight
            (CameraMoveForward
              (CameraRoll
                (CameraYaw
                  (CameraPitch cam (-rotation.y * rl_DEG2RAD) true false false)
                  (-rotation.x * rl_DEG2RAD) false)
                (rotation.z * rl_DEG2RAD))
              movement.x true)
            movement.y true)
          movement.z)
        zoom :=
  rfl

/-- Claim C7: moving forward by a non-zero distance and then by its negation
restores the camera position and target exactly (in exact real arithmetic). -/
theorem camera_move_forward_round_trip (cam : rl_Camera3D) (d : ℝ) (flag : Bool)
    (hd : d ≠ 0) :
    (CameraMoveForward (CameraMoveForward cam d flag) (-d) flag).position = cam.position ∧
    (CameraMoveForward (CameraMoveForward cam d flag) (-d) flag).target = cam.target := by
  have hfwd : ∀ v : rl_Vector3,
      GetCameraForward
        { cam with position := Vector3Add cam.position v, target := Vector3Add cam.target v }
        = GetCameraForward cam := by
    intro v
    simp only [GetCameraForward, v3_sub_add_right_cancel]
  have hdir : ∀ v : rl_Vector3,
      cameraMoveForwardDir
        { cam with position := Vector3Add cam.position v, target := Vector3Add cam.target v }
        flag
        = cameraMoveForwardDir cam flag := by
    intro v
    cases flag <;> simp only [cameraMoveForwardDir, hfwd]
  rw [camera_move_forward_unfold cam d flag, camera_move_forward_unfold, hdir]
  constructor <;> ext <;> simp only [Vector3Add, Vector3Scale] <;> ring

/-- Witness for C7 at distance one on a concrete camera. -/
theorem camera_move_forward_round_trip_witness :
    (1 : ℝ) ≠ 0 ∧
    (CameraMoveForward (CameraMoveForward cameraOnZAxis 1 false) (-1) false).position
      = cameraOnZAxis.position ∧
    (CameraMoveForward (CameraMoveForward cameraOnZAxis 1 false) (-1) false).target
      = cameraOnZAxis.target :=
  ⟨by norm_num, camera_move_forward_round_trip cameraOnZAxis 1 false (by norm_num)⟩

/-- Claim C5: starting from a camera with position distinct from target,
every public camera operation keeps the position-to-target distance
strictly positive. -/
theorem camera_ops_keep_distance_positive (cam : rl_Camera3D)
    (hp : cam.position ≠ cam.target) (d delta angle : ℝ) (wp lv rat ru : Bool) :
    0 < Vector3Distance (CameraMoveForward cam d wp).position
        (CameraMoveForward cam d wp).target ∧
    0 < Vector3Distance (CameraMoveUp cam d).position (CameraMoveUp cam d).target ∧
    0 < Vector3Distance (CameraMoveRight cam d wp).position
        (CameraMoveRight cam d wp).target ∧
    0 < Vector3Distance (CameraMoveToTarget cam delta).position
        (CameraMoveToTarget cam delta).target ∧
    0 < Vector3Distance (CameraYaw cam angle rat).position (CameraYaw cam angle rat).target ∧
    0 < Vector3Distance (CameraPitch cam angle lv rat ru).position
        (CameraPitch cam angle lv rat ru).target ∧
    0 < Vector3Distance (CameraRoll cam angle).position (CameraRoll cam angle).target := by
  have htp : Vector3Subtract cam.target cam.position ≠ Vector3Zero := by
    intro h
    exact hp ((v3_sub_eq_zero_iff _ _).mp h).symm
  refine ⟨?_, ?_, ?_, ?_, ?_, ?_, ?_⟩
  · rw [camera_move_forward_unfold]
    exact camera_translate_distance cam hp _
  · exact camera_translate_distance cam hp _
  · rw [camera_move_right_unfold]
    exact camera_translate_distance cam hp _
  · rw [camera_move_to_target_distance_eq cam hp delta]
    split_ifs with h
    · norm_num
    · exact not_le.mp h
  · have hyfv : Vector3Subtract (CameraYaw cam angle rat).target
        (CameraYaw cam angle rat).position
        = Vector3RotateByAxisAngle (Vector3Subtract cam.target cam.position)
            (GetCameraUp cam) angle := by
      cases rat
      · exact v3_add_sub_cancel_left cam.position _
      · exact v3_sub_sub_cancel cam.target _
    simp only [Vector3Distance, hyfv]
    exact v3_length_pos _ (v3_rotate_ne_zero _ _ _ htp)
  · simp only [Vector3Distance, camera_pitch_forward_vec]
    exact v3_length_pos _ (v3_rotate_ne_zero _ _ _ htp)
  · exact v3_distance_pos _ _ hp

/-- Witness for C5 on a concrete camera and concrete arguments. -/
theorem camera_ops_keep_distance_positive_witness :
    cameraOnZAxis.position ≠ cameraOnZAxis.target ∧
    (0 < Vector3Distance (CameraMoveForward cameraOnZAxis 1 true).position
        (CameraMoveForward cameraOnZAxis 1 true).target ∧
    0 < Vector3Distance (CameraMoveUp cameraOnZAxis 1).position
        (CameraMoveUp cameraOnZAxis 1).target ∧
    0 < Vector3Distance (CameraMoveRight cameraOnZAxis 1 true).position
        (CameraMoveRight cameraOnZAxis 1 true).target ∧
    0 < Vector3Distance (CameraMoveToTarget cameraOnZAxis 2).position
        (CameraMoveToTarget cameraOnZAxis 2).target ∧
    0 < Vector3Distance (CameraYaw cameraOnZAxis 0.3 false).position
        (CameraYaw cameraOnZAxis 0.3 false).target ∧
    0 < Vector3Distance (CameraPitch cameraOnZAxis 0.3 true false false).position
        (CameraPitch cameraOnZAxis 0.3 true false false).target ∧
    0 < Vector3Distance (CameraRoll cameraOnZAxis 0.3).position
        (CameraRoll cameraOnZAxis 0.3).target) :=
  ⟨camera_on_z_axis_position_ne,
    camera_ops_keep_distance_positive cameraOnZAxis camera_on_z_axis_position_ne
      1 2 0.3 true true false false⟩

theorem unit_y_length : Vector3Length (⟨0, 1, 0⟩ : rl_Vector3) = 1 := by
  simp only [Vector3Length, Vector3DotProduct]
  rw [show (0 : ℝ) * 0 + 1 * 1 + 0 * 0 = 1 by norm_num, Real.sqrt_one]

theorem unit_y_normalize : Vector3Normalize (⟨0, 1, 0⟩ : rl_Vector3) = ⟨0, 1, 0⟩ := by
  rw [Vector3Normalize, if_neg (by rw [unit_y_length]; norm_num), unit_y_length]
  ext <;> simp [Vector3Scale]

theorem pitch_lock_pole_angles (cam : rl_Camera3D) (angle : ℝ) (rat ru : Bool)
    (h : Vector3CrossProduct (Vector3Subtract cam.target cam.position) cam.up ≠ Vector3Zero) :
    0 < Vector3Angle (GetCameraUp (CameraPitch cam angle true rat ru))
        (GetCameraForward (CameraPitch cam angle true rat ru)) ∧
    0 < Vector3Angle (Vector3Negate (GetCameraUp (CameraPitch cam angle true rat ru)))
        (GetCameraForward (CameraPitch cam angle true rat ru)) := by
  have htp_ne : Vector3Subtract cam.target cam.position ≠ Vector3Zero := by
    intro h0
    apply h
    rw [h0]
    exact v3_cross_zero_left cam.up
  have hup_ne : cam.up ≠ Vector3Zero := by
    intro h0
    apply h
    rw [h0]
    exact v3_cross_zero_right _
  have hneg := v3_angle_neg_left (Vector3Normalize cam.up) (Vector3Subtract cam.target cam.position)
  have hpi := Real.pi_gt_three
  have hclamp : cameraPitchClampedAngle cam angle true
      = max (-(Real.pi - Vector3Angle (Vector3Normalize cam.up)
              (Vector3Subtract cam.target cam.position)) + 0.001)
          (min angle (Vector3Angle (Vector3Normalize cam.up)
              (Vector3Subtract cam.target cam.position) - 0.001)) := by
    have h0 : cameraPitchClampedAngle cam angle true
        = max (-(Vector3Angle (Vector3Negate (Vector3Normalize cam.up))
                (Vector3Subtract cam.target cam.position)) + 0.001)
            (min angle (Vector3Angle (Vector3Normalize cam.up)
                (Vector3Subtract cam.target cam.position) - 0.001)) :=
      camera_pitch_clamped_angle_eq cam angle
    rw [h0, hneg]
  have hθ_le : cameraPitchClampedAngle cam angle true
      ≤ Vector3Angle (Vector3Normalize cam.up) (Vector3Subtract cam.target cam.position)
          - 0.001 := by
    rw [hclamp]
    exact max_le (by linarith) (min_le_right _ _)
  have hθ_ge : -(Real.pi - Vector3Angle (Vector3Normalize cam.up)
        (Vector3Subtract cam.target cam.position)) + 0.001
      ≤ cameraPitchClampedAngle cam angle true := by
    rw [hclamp]
    exact le_max_left _ _
  have hformula := pitch_angle_formula cam.up (Vector3Subtract cam.target cam.position)
    (cameraPitchClampedAngle cam angle true) h (by linarith) (by linarith)
  have hrot_ne := v3_rotate_ne_zero (Vector3Subtract cam.target cam.position)
    (GetCameraRight cam) (cameraPitchClampedAngle cam angle true) htp_ne
  have hfv := camera_pitch_forward_vec cam angle true rat ru
  have hGR : GetCameraRight cam
      = Vector3Normalize (Vector3CrossProduct
          (Vector3Normalize (Vector3Subtract cam.target cam.position))
          (Vector3Normalize cam.up)) := rfl
  cases ru
  · have hup' := camera_pitch_up_fixed cam angle true rat
    constructor
    · simp only [GetCameraUp, GetCameraForward, hup', hfv]
      rw [v3_angle_normalize_right _ _ hrot_ne, hGR, hformula]
      linarith
    · simp only [GetCameraUp, GetCameraForward, hup', hfv]
      rw [v3_angle_neg_left, v3_angle_normalize_right _ _ hrot_ne, hGR, hformula]
      linarith
  · have hup' : (CameraPitch cam angle true rat true).up
        = Vector3RotateByAxisAngle cam.up (GetCameraRight cam)
            (cameraPitchClampedAngle cam angle true) := by
      cases rat <;> rfl
    have hRup_ne := v3_rotate_ne_zero cam.up (GetCameraRight cam)
      (cameraPitchClampedAngle cam angle true) hup_ne
    have hang_eq : Vector3Angle
        (Vector3RotateByAxisAngle cam.up (GetCameraRight cam)
          (cameraPitchClampedAngle cam angle true))
        (Vector3RotateByAxisAngle (Vector3Subtract cam.target cam.position) (GetCameraRight cam)
          (cameraPitchClampedAngle cam angle true))
        = Vector3Angle cam.up (Vector3Subtract cam.target cam.position) := by
      simp only [Vector3Angle, v3_rotate_dot, v3_length_rotate]
    have hn := v3_length_pos _ htp_ne
    have hLu := v3_length_pos _ hup_ne
    have hcross_pos : 0 < Vector3DotProduct
        (Vector3CrossProduct (Vector3Subtract cam.target cam.position) cam.up)
        (Vector3CrossProduct (Vector3Subtract cam.target cam.position) cam.up) := by
      rw [← v3_length_sq]
      have hpos := v3_length_pos _ h
      positivity
    have hlag := v3_lagrange (Vector3Subtract cam.target cam.position) cam.up
    have htt := v3_length_sq (Vector3Subtract cam.target cam.position)
    have huu2 := v3_length_sq cam.up
    have hstrict : Vector3DotProduct cam.up (Vector3Subtract cam.target cam.position) ^ 2
        < (Vector3Length cam.up * Vector3Length (Vector3Subtract cam.target cam.position)) ^ 2 := by
      rw [v3_dot_comm]
      nlinarith [hlag, hcross_pos, htt, huu2]
    have hangle_pos : 0 < Vector3Angle cam.up (Vector3Subtract cam.target cam.position) := by
      simp only [Vector3Angle]
      apply Real.arccos_pos.mpr
      rw [div_lt_one (by positivity)]
      nlinarith [hstrict, mul_pos hLu hn]
    have hangle_lt : Vector3Angle cam.up (Vector3Subtract cam.target cam.position) < Real.pi := by
      simp only [Vector3Angle]
      refine lt_of_le_of_ne (Real.arccos_le_pi _) ?_
      intro he
      have hx := Real.arccos_eq_pi.mp he
      rw [div_le_iff (by positivity)] at hx
      nlinarith [hstrict, mul_pos hLu hn]
    constructor
    · simp only [GetCameraUp, GetCameraForward, hup', hfv]
      rw [v3_angle_normalize_left _ _ hRup_ne, v3_angle_normalize_right _ _ hrot_ne, hang_eq]
      exact hangle_pos
    · simp only [GetCameraUp, GetCameraForward, hup', hfv]
      rw [v3_angle_neg_left, v3_angle_normalize_left _ _ hRup_ne,
        v3_angle_normalize_right _ _ hrot_ne, hang_eq]
      linarith

/-- Claim C1 (amended): for every camera whose view vector is not parallel
to its up vector, `CameraPitch` with lockView true first clamps the angle
into the interval from −(angle between −Up and forward) + 0.001 to
(angle between Up and forward) − 0.001, and the resulting forward vector
keeps a strictly positive angle to Up and to −Up (for a camera already on
the pole the angle stays 0). -/
theorem camera_pitch_lock_clamps_and_avoids_poles (cam : rl_Camera3D) (angle : ℝ)
    (rat ru : Bool)
    (h : Vector3CrossProduct (Vector3Subtract cam.target cam.position) cam.up ≠ Vector3Zero) :
    (CameraPitch cam angle true rat ru =
      CameraPitch cam
        (max (-(Vector3Angle (Vector3Negate (GetCameraUp cam))
                (Vector3Subtract cam.target cam.position)) + 0.001)
          (min angle (Vector3Angle (GetCameraUp cam)
                (Vector3Subtract cam.target cam.position) - 0.001)))
        false rat ru) ∧
    0 < Vector3Angle (GetCameraUp (CameraPitch cam angle true rat ru))
        (GetCameraForward (CameraPitch cam angle true rat ru)) ∧
    0 < Vector3Angle (Vector3Negate (GetCameraUp (CameraPitch cam angle true rat ru)))
        (GetCameraForward (CameraPitch cam angle true rat ru)) :=
  ⟨by rw [camera_pitch_lock_unfold, camera_pitch_clamped_angle_eq],
    (pitch_lock_pole_angles cam angle rat ru h).1,
    (pitch_lock_pole_angles cam angle rat ru h).2⟩

/-- Counterexample to claim C1 as stated: for the degenerate camera looking
exactly along its own up vector, pitch with lockView leaves the forward
vector at angle 0 to Up, so the angle is not kept strictly positive. -/
theorem camera_pitch_lock_pole_counterexample :
    Vector3Angle (GetCameraUp (CameraPitch cameraAtPole 0.5 true false false))
      (GetCameraForward (CameraPitch cameraAtPole 0.5 true false false)) = 0 := by
  have htp : Vector3Subtract cameraAtPole.target cameraAtPole.position
      = (⟨0, 1, 0⟩ : rl_Vector3) := by
    ext <;> simp [cameraAtPole, Vector3Subtract]
  have hup_eq : cameraAtPole.up = (⟨0, 1, 0⟩ : rl_Vector3) := rfl
  have hright : GetCameraRight cameraAtPole = Vector3Zero := by
    rw [GetCameraRight, GetCameraForward, GetCameraUp, htp, hup_eq, unit_y_normalize]
    rw [show Vector3CrossProduct (⟨0, 1, 0⟩ : rl_Vector3) (⟨0, 1, 0⟩ : rl_Vector3)
        = Vector3Zero from by ext <;> simp [Vector3CrossProduct, Vector3Zero]]
    show (if Vector3Length Vector3Zero = 0 then Vector3Zero
      else Vector3Scale Vector3Zero (1 / Vector3Length Vector3Zero)) = Vector3Zero
    exact if_pos v3_length_zero
  have hfv := camera_pitch_forward_vec cameraAtPole 0.5 true false false
  rw [htp, hright] at hfv
  rw [show Vector3RotateByAxisAngle (⟨0, 1, 0⟩ : rl_Vector3) Vector3Zero
      (cameraPitchClampedAngle cameraAtPole 0.5 true) = ⟨0, 1, 0⟩ from by
    rw [Vector3RotateByAxisAngle, if_pos v3_length_zero]] at hfv
  have hup' := camera_pitch_up_fixed cameraAtPole 0.5 true false
  simp only [GetCameraUp, GetCameraForward, hup', hfv, hup_eq, unit_y_normalize]
  simp only [Vector3Angle, Vector3DotProduct, unit_y_length]
  rw [show (0 : ℝ) * 0 + 1 * 1 + 0 * 0 = 1 by norm_num]
  norm_num

/-- Witness for C1 on a camera whose view vector is perpendicular to up. -/
theorem camera_pitch_lock_clamps_witness :
    Vector3CrossProduct (Vector3Subtract cameraOnZAxis.target cameraOnZAxis.position)
      cameraOnZAxis.up ≠ Vector3Zero ∧
    ((CameraPitch cameraOnZAxis 0.2 true false false =
      CameraPitch cameraOnZAxis
        (max (-(Vector3Angle (Vector3Negate (GetCameraUp cameraOnZAxis))
                (Vector3Subtract cameraOnZAxis.target cameraOnZAxis.position)) + 0.001)
          (min 0.2 (Vector3Angle (GetCameraUp cameraOnZAxis)
                (Vector3Subtract cameraOnZAxis.target cameraOnZAxis.position) - 0.001)))
        false false false) ∧
    0 < Vector3Angle (GetCameraUp (CameraPitch cameraOnZAxis 0.2 true false false))
        (GetCameraForward (CameraPitch cameraOnZAxis 0.2 true false false)) ∧
    0 < Vector3Angle (Vector3Negate (GetCameraUp (CameraPitch cameraOnZAxis 0.2 true false false)))
        (GetCameraForward (CameraPitch cameraOnZAxis 0.2 true false false))) := by
  have hcross : Vector3CrossProduct
      (Vector3Subtract cameraOnZAxis.target cameraOnZAxis.position) cameraOnZAxis.up
      ≠ Vector3Zero := by
    intro h0
    have hx := congrArg rl_Vector3.x h0
    simp only [cameraOnZAxis, Vector3CrossProduct, Vector3Subtract, Vector3Zero] at hx
    norm_num at hx
  exact ⟨hcross, camera_pitch_lock_clamps_and_avoids_poles cameraOnZAxis 0.2 false false hcross⟩

theorem v3_normalize_unit (v : rl_Vector3) (h : Vector3Length v = 1) :
    Vector3Normalize v = v := by
  rw [Vector3Normalize, if_neg (by rw [h]; norm_num), h, one_div_one, v3_scale_one]

theorem v3_add_scale_zero (a v : rl_Vector3) :
    Vector3Add a (Vector3Scale v 0) = a := by
  ext <;> simp [Vector3Add, Vector3Scale]

theorem camera_pitch_zero_no_lock (cam : rl_Camera3D) :
    CameraPitch cam 0 false false false = cam := by
  have h1 : CameraPitch cam 0 false false false
      = { cam with target := (Vector3Add cam.position
          (Vector3RotateByAxisAngle (Vector3Subtract cam.target cam.position)
            (GetCameraRight cam) 0)) } := rfl
  rw [h1, v3_rotate_zero, v3_add_sub_self]

theorem camera_yaw_zero (cam : rl_Camera3D) : CameraYaw cam 0 false = cam := by
  have h1 : CameraYaw cam 0 false
      = { cam with target := (Vector3Add cam.position
          (Vector3RotateByAxisAngle (Vector3Subtract cam.target cam.position)
            (GetCameraUp cam) 0)) } := rfl
  rw [h1, v3_rotate_zero, v3_add_sub_self]

theorem camera_roll_zero (cam : rl_Camera3D) : CameraRoll cam 0 = cam := by
  have h1 : CameraRoll cam 0
      = { cam with up := Vector3RotateByAxisAngle cam.up (GetCameraForward cam) 0 } := rfl
  rw [h1, v3_rotate_zero]

theorem camera_move_forward_zero (cam : rl_Camera3D) (flag : Bool) :
    CameraMoveForward cam 0 flag = cam := by
  rw [camera_move_forward_unfold, v3_add_scale_zero, v3_add_scale_zero]

theorem camera_move_right_zero (cam : rl_Camera3D) (flag : Bool) :
    CameraMoveRight cam 0 flag = cam := by
  rw [camera_move_right_unfold, v3_add_scale_zero, v3_add_scale_zero]

theorem camera_move_up_zero (cam : rl_Camera3D) : CameraMoveUp cam 0 = cam := by
  have h1 : CameraMoveUp cam 0
      = { cam with
          position := Vector3Add cam.position (Vector3Scale (GetCameraUp cam) 0)
          target := Vector3Add cam.target (Vector3Scale (GetCameraUp cam) 0) } := rfl
  rw [h1, v3_add_scale_zero, v3_add_scale_zero]

theorem camera_move_to_target_zero (cam : rl_Camera3D)
    (hp : cam.position ≠ cam.target) : CameraMoveToTarget cam 0 = cam := by
  have ht_ne : Vector3Subtract cam.target cam.position ≠ Vector3Zero := by
    intro h0
    exact hp ((v3_sub_eq_zero_iff _ _).mp h0).symm
  have hL_ne := v3_length_ne_zero _ ht_ne
  have h1 : CameraMoveToTarget cam 0
      = { cam with position := (Vector3Add cam.target
          (Vector3Scale (GetCameraForward cam)
            (-(if Vector3Distance cam.position cam.target + 0 ≤ 0 then 0.001
               else Vector3Distance cam.position cam.target + 0)))) } := rfl
  rw [h1, if_neg (by rw [add_zero]; exact not_le.mpr (v3_distance_pos _ _ hp)), add_zero]
  have h2 : Vector3Add cam.target
      (Vector3Scale (GetCameraForward cam) (-Vector3Distance cam.position cam.target))
      = cam.position := by
    rw [GetCameraForward, v3_normalize_of_ne _ ht_ne]
    have h3 : Vector3Distance cam.position cam.target
        = Vector3Length (Vector3Subtract cam.target cam.position) := rfl
    rw [h3]
    have h4 : Vector3Scale
        (Vector3Scale (Vector3Subtract cam.target cam.position)
          (1 / Vector3Length (Vector3Subtract cam.target cam.position)))
        (-Vector3Length (Vector3Subtract cam.target cam.position))
        = Vector3Negate (Vector3Subtract cam.target cam.position) := by
      ext <;> simp only [Vector3Scale, Vector3Negate] <;> field_simp
    rw [h4]
    ext <;> simp only [Vector3Add, Vector3Negate, Vector3Subtract] <;> ring
  rw [h2]

/-- Claim C10 (amended): for every camera whose up-to-forward angle lies in
[0.001, π − 0.001] (so the zero-angle pitch of the pro update is not
re-clamped) and every yaw input r, `rl_UpdateCameraPro` with rotation
(r, 0, 0), zero movement and zero zoom equals `CameraYaw` by −r·(π/180)
with rotateAroundTarget false followed by the zero-delta movement and zoom
calls: the pro update negates the supplied yaw before delegating. -/
theorem update_camera_pro_yaw_equiv (cam : rl_Camera3D) (r : ℝ)
    (h1 : 0.001 ≤ Vector3Angle (GetCameraUp cam)
        (Vector3Subtract cam.target cam.position))
    (h2 : Vector3Angle (GetCameraUp cam)
        (Vector3Subtract cam.target cam.position) ≤ Real.pi - 0.001) :
    rl_UpdateCameraPro cam ⟨0, 0, 0⟩ ⟨r, 0, 0⟩ 0 =
      CameraMoveToTarget
        (CameraMoveUp
          (CameraMoveRight
            (CameraMoveForward (CameraYaw cam (-r * rl_DEG2RAD) false) 0 true)
            0 true)
          0)
        0 := by
  have hpi := Real.pi_gt_three
  have hclamped : cameraPitchClampedAngle cam (-0 * rl_DEG2RAD) true = 0 := by
    rw [camera_pitch_clamped_angle_eq, v3_angle_neg_left]
    rw [show -0 * rl_DEG2RAD = (0 : ℝ) by ring]
    rw [min_eq_left (by linarith), max_eq_right (by linarith)]
  have hpitch : CameraPitch cam (-0 * rl_DEG2RAD) true false false = cam := by
    rw [camera_pitch_lock_unfold, hclamped]
    exact camera_pitch_zero_no_lock cam
  show CameraMoveToTarget
      (CameraMoveUp
        (CameraMoveRight
          (CameraMoveForward
            (CameraRoll
              (CameraYaw (CameraPitch cam (-0 * rl_DEG2RAD) true false false)
                (-r * rl_DEG2RAD) false)
              (0 * rl_DEG2RAD))
            0 true)
          0 true)
        0)
      0 = _
  rw [hpitch, show (0 : ℝ) * rl_DEG2RAD = 0 by ring, camera_roll_zero]

/-- Witness for C10 on a camera whose view is perpendicular to up, with yaw
input 7. -/
theorem update_camera_pro_yaw_equiv_witness :
    (0.001 ≤ Vector3Angle (GetCameraUp cameraLookingMinusZ)
        (Vector3Subtract cameraLookingMinusZ.target cameraLookingMinusZ.position) ∧
      Vector3Angle (GetCameraUp cameraLookingMinusZ)
        (Vector3Subtract cameraLookingMinusZ.target cameraLookingMinusZ.position)
        ≤ Real.pi - 0.001) ∧
    rl_UpdateCameraPro cameraLookingMinusZ ⟨0, 0, 0⟩ ⟨7, 0, 0⟩ 0 =
      CameraMoveToTarget
        (CameraMoveUp
          (CameraMoveRight
            (CameraMoveForward (CameraYaw cameraLookingMinusZ (-7 * rl_DEG2RAD) false) 0 true)
            0 true)
          0)
        0 := by
  have hpi := Real.pi_gt_three
  have htp : Vector3Subtract cameraLookingMinusZ.target cameraLookingMinusZ.position
      = (⟨0, 0, -1⟩ : rl_Vector3) := by
    ext <;> simp [cameraLookingMinusZ, Vector3Subtract]
  have hL : Vector3Length (⟨0, 0, -1⟩ : rl_Vector3) = 1 := by
    simp only [Vector3Length, Vector3DotProduct]
    rw [show (0 : ℝ) * 0 + 0 * 0 + -1 * -1 = 1 by norm_num, Real.sqrt_one]
  have hGU : GetCameraUp cameraLookingMinusZ = (⟨0, 1, 0⟩ : rl_Vector3) := by
    rw [GetCameraUp, show cameraLookingMinusZ.up = (⟨0, 1, 0⟩ : rl_Vector3) from rfl,
      unit_y_normalize]
  have hangle : Vector3Angle (GetCameraUp cameraLookingMinusZ)
      (Vector3Subtract cameraLookingMinusZ.target cameraLookingMinusZ.position)
      = Real.pi / 2 := by
    rw [hGU, htp]
    simp only [Vector3Angle, unit_y_length, hL, Vector3DotProduct]
    rw [show (0 : ℝ) * 0 + 1 * 0 + 0 * -1 = 0 by norm_num]
    rw [show (0 : ℝ) / (1 * 1) = 0 by norm_num]
    exact Real.arccos_zero
  refine ⟨⟨by rw [hangle]; linarith, by rw [hangle]; linarith⟩, ?_⟩
  exact update_camera_pro_yaw_equiv cameraLookingMinusZ 7
    (by rw [hangle]; linarith) (by rw [hangle]; linarith)

/-- Counterexample to claim C10 as stated: for a camera whose view is only
0.0005 radians from its up axis, the pro update with zero rotation differs
from the plain yaw-then-zero-deltas composition, because the pro update's
pitch-by-zero call is re-clamped to −0.0005 and tilts the view. -/
theorem update_camera_pro_yaw_equiv_counterexample :
    rl_UpdateCameraPro cameraNearPole ⟨0, 0, 0⟩ ⟨0, 0, 0⟩ 0 ≠
      CameraMoveToTarget
        (CameraMoveUp
          (CameraMoveRight
            (CameraMoveForward (CameraYaw cameraNearPole (-0 * rl_DEG2RAD) false) 0 true)
            0 true)
          0)
        0 := by
  have hpi := Real.pi_gt_three
  have near_pole_tp : Vector3Subtract cameraNearPole.target cameraNearPole.position
      = (⟨Real.sin 0.0005, Real.cos 0.0005, 0⟩ : rl_Vector3) := by
    ext <;> simp [cameraNearPole, Vector3Subtract]
  have near_pole_length :
      Vector3Length (⟨Real.sin 0.0005, Real.cos 0.0005, 0⟩ : rl_Vector3) = 1 := by
    simp only [Vector3Length, Vector3DotProduct]
    rw [show Real.sin 0.0005 * Real.sin 0.0005 + Real.cos 0.0005 * Real.cos 0.0005 + 0 * 0
        = Real.sin 0.0005 ^ 2 + Real.cos 0.0005 ^ 2 by ring,
      Real.sin_sq_add_cos_sq, Real.sqrt_one]
  have hs_pos : 0 < Real.sin 0.0005 :=
    Real.sin_pos_of_pos_of_lt_pi (by norm_num) (by linarith)
  have hGU : GetCameraUp cameraNearPole = (⟨0, 1, 0⟩ : rl_Vector3) := by
    rw [GetCameraUp, show cameraNearPole.up = (⟨0, 1, 0⟩ : rl_Vector3) from rfl,
      unit_y_normalize]
  have hφ : Vector3Angle (GetCameraUp cameraNearPole)
      (Vector3Subtract cameraNearPole.target cameraNearPole.position) = 0.0005 := by
    rw [hGU, near_pole_tp]
    simp only [Vector3Angle, unit_y_length, near_pole_length, Vector3DotProduct]
    rw [show (0 : ℝ) * Real.sin 0.0005 + 1 * Real.cos 0.0005 + 0 * 0
        = Real.cos 0.0005 by ring]
    rw [show (1 : ℝ) * 1 = 1 by norm_num, div_one]
    exact Real.arccos_cos (by norm_num) (by linarith)
  have hclamped : cameraPitchClampedAngle cameraNearPole (-0 * rl_DEG2RAD) true
      = -0.0005 := by
    rw [camera_pitch_clamped_angle_eq, v3_angle_neg_left, hφ]
    rw [show -0 * rl_DEG2RAD = (0 : ℝ) by ring]
    rw [min_eq_right (by norm_num), max_eq_right (by linarith)]
    norm_num
  have hGR : GetCameraRight cameraNearPole = (⟨0, 0, 1⟩ : rl_Vector3) := by
    rw [GetCameraRight, GetCameraForward, hGU, near_pole_tp,
      v3_normalize_unit _ near_pole_length]
    rw [show Vector3CrossProduct (⟨Real.sin 0.0005, Real.cos 0.0005, 0⟩ : rl_Vector3)
        (⟨0, 1, 0⟩ : rl_Vector3) = (⟨0, 0, Real.sin 0.0005⟩ : rl_Vector3) from by
      ext <;> simp [Vector3CrossProduct] <;> ring]
    have hLs : Vector3Length (⟨0, 0, Real.sin 0.0005⟩ : rl_Vector3) = Real.sin 0.0005 := by
      simp only [Vector3Length, Vector3DotProduct]
      rw [show (0 : ℝ) * 0 + 0 * 0 + Real.sin 0.0005 * Real.sin 0.0005
          = Real.sin 0.0005 ^ 2 by ring]
      exact Real.sqrt_sq hs_pos.le
    rw [Vector3Normalize, if_neg (by rw [hLs]; exact hs_pos.ne'), hLs]
    ext <;> simp only [Vector3Scale] <;> field_simp
  have hrot : Vector3RotateByAxisAngle (⟨Real.sin 0.0005, Real.cos 0.0005, 0⟩ : rl_Vector3)
      (⟨0, 0, 1⟩ : rl_Vector3) (-0.0005)
      = (⟨Real.sin 0.001, Real.cos 0.001, 0⟩ : rl_Vector3) := by
    have hL1 : Vector3Length (⟨0, 0, 1⟩ : rl_Vector3) = 1 := by
      simp only [Vector3Length, Vector3DotProduct]
      rw [show (0 : ℝ) * 0 + 0 * 0 + 1 * 1 = 1 by norm_num, Real.sqrt_one]
    rw [Vector3RotateByAxisAngle, if_neg (by rw [hL1]; norm_num)]
    simp only [hL1, one_div_one, v3_scale_one]
    ext
    · simp only [Vector3Add, Vector3Scale, Vector3CrossProduct, Vector3DotProduct]
      rw [Real.cos_neg, Real.sin_neg,
        show (0.001 : ℝ) = 0.0005 + 0.0005 by norm_num, Real.sin_add]
      ring
    · simp only [Vector3Add, Vector3Scale, Vector3CrossProduct, Vector3DotProduct]
      rw [Real.cos_neg, Real.sin_neg,
        show (0.001 : ℝ) = 0.0005 + 0.0005 by norm_num, Real.cos_add]
      ring
    · simp only [Vector3Add, Vector3Scale, Vector3CrossProduct, Vector3DotProduct]
      ring
  have hpitch : CameraPitch cameraNearPole (-0 * rl_DEG2RAD) true false false
      = { cameraNearPole with target := ⟨Real.sin 0.001, Real.cos 0.001, 0⟩ } := by
    rw [camera_pitch_lock_unfold, hclamped]
    have hstep : CameraPitch cameraNearPole (-0.0005) false false false
        = { cameraNearPole with target := (Vector3Add cameraNearPole.position
            (Vector3RotateByAxisAngle
              (Vector3Subtract cameraNearPole.target cameraNearPole.position)
              (GetCameraRight cameraNearPole) (-0.0005))) } := rfl
    rw [hstep, near_pole_tp, hGR, hrot]
    have hadd : Vector3Add cameraNearPole.position
        (⟨Real.sin 0.001, Real.cos 0.001, 0⟩ : rl_Vector3)
        = (⟨Real.sin 0.001, Real.cos 0.001, 0⟩ : rl_Vector3) := by
      ext <;> simp [cameraNearPole, Vector3Add]
    rw [hadd]
  have hc01_pos : 0 < Real.cos 0.001 := by
    apply Real.cos_pos_of_mem_Ioo
    constructor <;> [linarith; linarith]
  have hc05_pos : 0 < Real.cos 0.0005 := by
    apply Real.cos_pos_of_mem_Ioo
    constructor <;> [linarith; linarith]
  have hne1 : ({ cameraNearPole with
      target := (⟨Real.sin 0.001, Real.cos 0.001, 0⟩ : rl_Vector3) } : rl_Camera3D).position
      ≠ ({ cameraNearPole with
      target := (⟨Real.sin 0.001, Real.cos 0.001, 0⟩ : rl_Vector3) } : rl_Camera3D).target := by
    intro h0
    have hy := congrArg rl_Vector3.y h0
    simp only [cameraNearPole] at hy
    exact absurd hy.symm hc01_pos.ne'
  have hne0 : cameraNearPole.position ≠ cameraNearPole.target := by
    intro h0
    have hy := congrArg rl_Vector3.y h0
    simp only [cameraNearPole] at hy
    exact absurd hy.symm hc05_pos.ne'
  have hLHS : rl_UpdateCameraPro cameraNearPole ⟨0, 0, 0⟩ ⟨0, 0, 0⟩ 0
      = { cameraNearPole with target := ⟨Real.sin 0.001, Real.cos 0.001, 0⟩ } := by
    show CameraMoveToTarget
        (CameraMoveUp
          (CameraMoveRight
            (CameraMoveForward
              (CameraRoll
                (CameraYaw (CameraPitch cameraNearPole (-0 * rl_DEG2RAD) true false false)
                  (-0 * rl_DEG2RAD) false)
                (0 * rl_DEG2RAD))
              0 true)
            0 true)
          0)
        0 = _
    rw [hpitch, show -0 * rl_DEG2RAD = (0 : ℝ) by ring,
      show (0 : ℝ) * rl_DEG2RAD = 0 by ring_nf, camera_yaw_zero, camera_roll_zero,
      camera_move_forward_zero, camera_move_right_zero, camera_move_up_zero,
      camera_move_to_target_zero _ hne1]
  have hRHS : CameraMoveToTarget
      (CameraMoveUp
        (CameraMoveRight
          (CameraMoveForward (CameraYaw cameraNearPole (-0 * rl_DEG2RAD) false) 0 true)
          0 true)
        0)
      0 = cameraNearPole := by
    rw [show -0 * rl_DEG2RAD = (0 : ℝ) by ring, camera_yaw_zero,
      camera_move_forward_zero, camera_move_right_zero, camera_move_up_zero,
      camera_move_to_target_zero _ hne0]
  rw [hLHS, hRHS]
  intro h0
  have hx := congrArg (fun c : rl_Camera3D => c.target.x) h0
  simp only [cameraNearPole] at hx
  have hmono : Real.sin 0.0005 < Real.sin 0.001 := by
    apply Real.strictMonoOn_sin ⟨by linarith, by linarith⟩ ⟨by linarith, by linarith⟩
    norm_num
  rw [hx] at hmono
  exact lt_irrefl _ hmono

theorem update_camera_unknown_aux (env : rl_CameraInput) (cam : rl_Camera3D) (mode : ℤ)
    (h0 : mode ≠ CAMERA_CUSTOM) (h1 : mode ≠ CAMERA_FREE) (h2 : mode ≠ CAMERA_ORBITAL)
    (h3 : mode ≠ CAMERA_FIRST_PERSON) (h4 : mode ≠ CAMERA_THIRD_PERSON) :
    rl_UpdateCamera env cam mode =
      cameraGenericUpdate env cam false false false false false
        (CAMERA_MOVE_SPEED * env.frameTime) (CAMERA_ROTATION_SPEED * env.frameTime)
        (CAMERA_PAN_SPEED * env.frameTime) := by
  have hm1 : decide (mode = CAMERA_FIRST_PERSON ∨ mode = CAMERA_THIRD_PERSON) = false := by
    apply decide_eq_false
    rintro (hc | hc)
    · exact h3 hc
    · exact h4 hc
  have hm2 : decide (mode = CAMERA_THIRD_PERSON ∨ mode = CAMERA_ORBITAL) = false := by
    apply decide_eq_false
    rintro (hc | hc)
    · exact h4 hc
    · exact h2 hc
  have hm3 : decide (mode = CAMERA_FREE ∨ mode = CAMERA_FIRST_PERSON ∨
      mode = CAMERA_THIRD_PERSON ∨ mode = CAMERA_ORBITAL) = false := by
    apply decide_eq_false
    rintro (hc | hc | hc | hc)
    exacts [h1 hc, h3 hc, h4 hc, h2 hc]
  have hm4 : decide (mode = CAMERA_FREE) = false := decide_eq_false h1
  have hz : ¬(mode = CAMERA_THIRD_PERSON ∨ mode = CAMERA_ORBITAL ∨ mode = CAMERA_FREE) := by
    rintro (hc | hc | hc)
    exacts [h4 hc, h2 hc, h1 hc]
  simp only [rl_UpdateCamera, hm1, hm2, hm3, hm4, if_neg h0, if_neg h2, if_neg hz]

/-- Claim C3 (amended): a mode value outside the five recognized camera
modes is not a no-op: the mode-driven update runs the shared
FREE/FIRST_PERSON/THIRD_PERSON input branch with every policy flag false
and without the FREE-only pan and vertical movement or the zoom tail, so
input signals still move the camera. -/
theorem update_camera_unknown_mode (env : rl_CameraInput) (cam : rl_Camera3D) (mode : ℤ)
    (h0 : mode ≠ CAMERA_CUSTOM) (h1 : mode ≠ CAMERA_FREE) (h2 : mode ≠ CAMERA_ORBITAL)
    (h3 : mode ≠ CAMERA_FIRST_PERSON) (h4 : mode ≠ CAMERA_THIRD_PERSON) :
    rl_UpdateCamera env cam mode =
      cameraGenericUpdate env cam false false false false false
        (CAMERA_MOVE_SPEED * env.frameTime) (CAMERA_ROTATION_SPEED * env.frameTime)
        (CAMERA_PAN_SPEED * env.frameTime) :=
  update_camera_unknown_aux env cam mode h0 h1 h2 h3 h4

/-- Witness for C3 at the out-of-range mode value 5. -/
theorem update_camera_unknown_mode_witness :
    ((5 : ℤ) ≠ CAMERA_CUSTOM ∧ (5 : ℤ) ≠ CAMERA_FREE ∧ (5 : ℤ) ≠ CAMERA_ORBITAL ∧
      (5 : ℤ) ≠ CAMERA_FIRST_PERSON ∧ (5 : ℤ) ≠ CAMERA_THIRD_PERSON) ∧
    rl_UpdateCamera envOnlyKeyW cameraLookingMinusZ 5 =
      cameraGenericUpdate envOnlyKeyW cameraLookingMinusZ false false false false false
        (CAMERA_MOVE_SPEED * envOnlyKeyW.frameTime)
        (CAMERA_ROTATION_SPEED * envOnlyKeyW.frameTime)
        (CAMERA_PAN_SPEED * envOnlyKeyW.frameTime) :=
  ⟨⟨by norm_num [CAMERA_CUSTOM], by norm_num [CAMERA_FREE], by norm_num [CAMERA_ORBITAL],
    by norm_num [CAMERA_FIRST_PERSON], by norm_num [CAMERA_THIRD_PERSON]⟩,
    update_camera_unknown_mode envOnlyKeyW cameraLookingMinusZ 5
      (by norm_num [CAMERA_CUSTOM]) (by norm_num [CAMERA_FREE])
      (by norm_num [CAMERA_ORBITAL]) (by norm_num [CAMERA_FIRST_PERSON])
      (by norm_num [CAMERA_THIRD_PERSON])⟩

/-- Counterexample to claim C3 as stated: with mode 5, the W key held and
one second of frame time, the mode-driven update moves the camera forward,
so the out-of-range mode is not a no-op. -/
theorem update_camera_unknown_mode_not_noop :
    rl_UpdateCamera envOnlyKeyW cameraLookingMinusZ 5 ≠ cameraLookingMinusZ := by
  have haux := update_camera_unknown_aux envOnlyKeyW cameraLookingMinusZ 5
    (by norm_num [CAMERA_CUSTOM]) (by norm_num [CAMERA_FREE])
    (by norm_num [CAMERA_ORBITAL]) (by norm_num [CAMERA_FIRST_PERSON])
    (by norm_num [CAMERA_THIRD_PERSON])
  have hgen : cameraGenericUpdate envOnlyKeyW cameraLookingMinusZ false false false false false
      (CAMERA_MOVE_SPEED * envOnlyKeyW.frameTime)
      (CAMERA_ROTATION_SPEED * envOnlyKeyW.frameTime)
      (CAMERA_PAN_SPEED * envOnlyKeyW.frameTime)
      = CameraMoveForward
          (CameraPitch
            (CameraYaw cameraLookingMinusZ
              (-envOnlyKeyW.mouseDeltaX * CAMERA_MOUSE_MOVE_SENSITIVITY) false)
            (-envOnlyKeyW.mouseDeltaY * CAMERA_MOUSE_MOVE_SENSITIVITY) false false false)
          (CAMERA_MOVE_SPEED * envOnlyKeyW.frameTime) false := rfl
  have hy0 : CameraYaw cameraLookingMinusZ
      (-envOnlyKeyW.mouseDeltaX * CAMERA_MOUSE_MOVE_SENSITIVITY) false
      = cameraLookingMinusZ := by
    rw [show -envOnlyKeyW.mouseDeltaX * CAMERA_MOUSE_MOVE_SENSITIVITY = (0 : ℝ) from by
      rw [show envOnlyKeyW.mouseDeltaX = (0 : ℝ) from rfl]; ring]
    exact camera_yaw_zero _
  have hp0 : CameraPitch cameraLookingMinusZ
      (-envOnlyKeyW.mouseDeltaY * CAMERA_MOUSE_MOVE_SENSITIVITY) false false false
      = cameraLookingMinusZ := by
    rw [show -envOnlyKeyW.mouseDeltaY * CAMERA_MOUSE_MOVE_SENSITIVITY = (0 : ℝ) from by
      rw [show envOnlyKeyW.mouseDeltaY = (0 : ℝ) from rfl]; ring]
    exact camera_pitch_zero_no_lock _
  rw [haux, hgen, hy0, hp0]
  intro h0
  rw [camera_move_forward_unfold] at h0
  have hdir : cameraMoveForwardDir cameraLookingMinusZ false = (⟨0, 0, -1⟩ : rl_Vector3) := by
    rw [show cameraMoveForwardDir cameraLookingMinusZ false
        = GetCameraForward cameraLookingMinusZ from rfl]
    rw [GetCameraForward, show Vector3Subtract cameraLookingMinusZ.target
        cameraLookingMinusZ.position = (⟨0, 0, -1⟩ : rl_Vector3) from by
      ext <;> simp [cameraLookingMinusZ, Vector3Subtract]]
    refine v3_normalize_unit _ ?_
    simp only [Vector3Length, Vector3DotProduct]
    rw [show (0 : ℝ) * 0 + 0 * 0 + -1 * -1 = 1 by norm_num, Real.sqrt_one]
  rw [hdir] at h0
  have hzc := congrArg (fun c : rl_Camera3D => c.position.z) h0
  simp only [cameraLookingMinusZ, Vector3Add, Vector3Scale, CAMERA_MOVE_SPEED,
    envOnlyKeyW] at hzc
  norm_num at hzc

end
